import Mathlib

/-!
Shallow embedding of the core matching-and-ledger engine of the book-price
tracker, translated from `src/book_prices/storage/sqlite.py`.

Modelling conventions:
* Python strings are lists of Unicode code points (`PyStr := List Nat`).
* SQLite rows are Lean structures; tables are lists of rows kept in insertion
  order; `AUTOINCREMENT` surrogate keys are explicit `next_*_id` counters
  (SQLite starts them at 1).
* `REAL` prices are carried at fixed 2-decimal precision by the scraper, so
  they are modelled exactly as integers of minor units (`Price := Int`);
  the code compares them with `!=`, i.e. exact equality, which is what the
  model's decidable equality on `Option Price` expresses.
* `captured_at` (`datetime('now')`) is modelled as a `Nat` timestamp supplied
  by the caller; the wall clock is nondecreasing across calls, which theorems
  take as a hypothesis where they need it.
* The `sqlite3` transaction in `upsert_offer` (`BEGIN` ... `commit`) is
  modelled by threading a pending state through the statements and committing
  only at the end; an error at any statement makes the pending state
  unobservable (other readers of the database only ever see committed state).
-/

/-- Python strings as lists of Unicode code points. -/
abbrev PyStr := List Nat

/-- Code points stripped by `str.strip()` and matched by `re`'s `\s` on `str`
(Unicode whitespace: ASCII whitespace controls, the information separators
U+001C–U+001F, space, NEL, NBSP, and the Unicode space blocks). -/
def isSpaceCP (c : Nat) : Bool :=
  decide (9 ≤ c ∧ c ≤ 13) || decide (28 ≤ c ∧ c ≤ 31) || decide (c = 32) ||
  decide (c = 0x85) || decide (c = 0xA0) || decide (c = 0x1680) ||
  decide (0x2000 ≤ c ∧ c ≤ 0x200A) || decide (c = 0x2028) || decide (c = 0x2029) ||
  decide (c = 0x202F) || decide (c = 0x205F) || decide (c = 0x3000)

/-- Python's `str.lower()` as a map on code points.  The Unicode simple
lowercase mapping is spelled out for the blocks the normalizer's character
filter keeps (ASCII, Cyrillic U+0400–04FF, Georgian U+10A0–10FF) together
with every block that lowercases *into* one of those kept blocks (A–Z,
Cyrillic capitals, Georgian Asomtavruli — which lowercases *out* of the kept
block into U+2D00… — Georgian Mtavruli U+1C90…, and the Kelvin sign); on all
remaining code points neither the point nor its lowercase lies in a kept
block, so the identity is observationally equivalent for `title_norm`.
(The one special casing `str.lower` applies that is not a single-point map,
U+0130 → "i"+U+0307, is not representable in a point map and is treated as
the identity; it also lies outside every kept block.) -/
def pyLower (c : Nat) : Nat :=
  if 65 ≤ c ∧ c ≤ 90 then c + 32
  else if 0x400 ≤ c ∧ c ≤ 0x40F then c + 0x50
  else if 0x410 ≤ c ∧ c ≤ 0x42F then c + 0x20
  else if 0x460 ≤ c ∧ c ≤ 0x481 ∧ c % 2 = 0 then c + 1
  else if 0x48A ≤ c ∧ c ≤ 0x4BF ∧ c % 2 = 0 then c + 1
  else if c = 0x4C0 then 0x4CF
  else if 0x4C1 ≤ c ∧ c ≤ 0x4CE ∧ c % 2 = 1 then c + 1
  else if 0x4D0 ≤ c ∧ c ≤ 0x4FF ∧ c % 2 = 0 then c + 1
  else if (0x10A0 ≤ c ∧ c ≤ 0x10C5) ∨ c = 0x10C7 ∨ c = 0x10CD then c + 0x1C60
  else if (0x1C90 ≤ c ∧ c ≤ 0x1CBA) ∨ c = 0x1CBD ∨ c = 0x1CBE ∨ c = 0x1CBF then c - 0xBC0
  else if c = 0x212A then 0x6B
  else c

/-- The quote characters removed by `re.sub(r"[\"'`“”„’]", "", t)`. -/
def isQuoteCP (c : Nat) : Bool :=
  decide (c = 34) || decide (c = 39) || decide (c = 96) ||
  decide (c = 0x201C) || decide (c = 0x201D) || decide (c = 0x201E) || decide (c = 0x2019)

/-- The bracket characters replaced by a space. -/
def isBracketCP (c : Nat) : Bool :=
  decide (c = 40) || decide (c = 41) || decide (c = 91) || decide (c = 93) ||
  decide (c = 123) || decide (c = 125)

/-- The character class kept by the catch-all substitution
`[^0-9a-zA-ZႠ-ჿЀ-ӿ\s]` (digits, ASCII letters, the
Georgian and Cyrillic blocks, and whitespace). -/
def isKeptCP (c : Nat) : Bool :=
  decide (48 ≤ c ∧ c ≤ 57) || decide (65 ≤ c ∧ c ≤ 90) || decide (97 ≤ c ∧ c ≤ 122) ||
  decide (0x10A0 ≤ c ∧ c ≤ 0x10FF) || decide (0x400 ≤ c ∧ c ≤ 0x4FF) || isSpaceCP c

/-- `t.replace("ё", "е")` (U+0451 → U+0435) as a map on code points. -/
def yoFold (c : Nat) : Nat := if c = 0x451 then 0x435 else c

/-- Replace brackets by a space, keep everything else. -/
def bracketToSpace (c : Nat) : Nat := if isBracketCP c then 32 else c

/-- The catch-all substitution: any code point outside the kept class becomes
a space.  (The source replaces each maximal *run* of such code points by one
space; since the pipeline ends with `re.sub(r"\s+", " ", t).strip()`, which
collapses whitespace runs, replacing them pointwise is observationally
identical and is used here.) -/
def filterCatchAll (c : Nat) : Nat := if isKeptCP c then c else 32

/-- `str.strip()`: drop leading and trailing whitespace. -/
def stripCP (l : PyStr) : PyStr :=
  ((l.dropWhile isSpaceCP).reverse.dropWhile isSpaceCP).reverse

/-- Worker for `re.sub(r"\s+", " ", t)`: the flag records whether the
previous character was whitespace (so the current run is already represented
by an emitted space). -/
def collapseWSAux : Bool → PyStr → PyStr
  | _, [] => []
  | prevWs, c :: rest =>
    if isSpaceCP c then
      if prevWs then collapseWSAux true rest else 32 :: collapseWSAux true rest
    else c :: collapseWSAux false rest

/-- `re.sub(r"\s+", " ", t)`: collapse each whitespace run to one space. -/
def collapseWS (l : PyStr) : PyStr := collapseWSAux false l

/-- The normalization pipeline of `title_norm` on a nonempty string:
strip, lower, fold `ё`, delete quotes, brackets to space, catch-all to
space, collapse whitespace, strip. -/
def title_norm_core (s : PyStr) : PyStr :=
  let t1 := (stripCP s).map pyLower
  let t2 := t1.map yoFold
  let t3 := t2.filter (fun c => !(isQuoteCP c))
  let t4 := t3.map bracketToSpace
  let t5 := t4.map filterCatchAll
  stripCP (collapseWS t5)

/-- `title_norm` from `sqlite.py`: `None`/empty input gives `None`, and a
pipeline result that is empty also gives `None` (`return t or None`). -/
def title_norm (s : Option PyStr) : Option PyStr :=
  match s with
  | none => none
  | some l =>
    if l = [] then none
    else
      let t := title_norm_core l
      if t = [] then none else some t

/-- Prices in minor units (exact fixed-precision model of the 2-decimal
`REAL` column `price_gel`). -/
abbrev Price := Int

/-- The observed-offer record produced by a store adapter
(`book_prices.core.models.Offer` as consumed by `sqlite.py`:
the fields `store`, `store_product_id`, `url`, `title`, `isbn`,
`price_gel`, `in_stock`). -/
structure Offer where
  store : PyStr
  store_product_id : PyStr
  url : PyStr
  title : Option PyStr
  isbn : Option PyStr
  price_gel : Option Price
  in_stock : Option Bool
deriving DecidableEq

/-- A row of the `books` table. -/
structure Book where
  id : Nat
  isbn13 : PyStr
  title : Option PyStr
  title_norm : Option PyStr
deriving DecidableEq

/-- A row of the `store_products` table. -/
structure StoreProduct where
  id : Nat
  store : PyStr
  store_product_id : PyStr
  url : PyStr
  book_id : Option Nat
deriving DecidableEq

/-- A row of the `offers` table (`in_stock` is the INTEGER column holding
`1`/`0`/`NULL` as written by the Python layer). -/
structure OfferRow where
  id : Nat
  store_product_id : Nat
  captured_at : Nat
  price_gel : Option Price
  in_stock : Option Nat
deriving DecidableEq

/-- The SQLite database state: the three tables in insertion order plus the
`AUTOINCREMENT` counters. -/
structure DB where
  books : List Book
  store_products : List StoreProduct
  offers : List OfferRow
  next_book_id : Nat
  next_sp_id : Nat
  next_offer_id : Nat
deriving DecidableEq

/-- A freshly initialised database (`init_schema` on an empty file;
`AUTOINCREMENT` keys start at 1). -/
def DB.empty : DB := ⟨[], [], [], 1, 1, 1⟩

/-- SQL `COALESCE` on two nullable values. -/
def coalesce {α : Type} (a b : Option α) : Option α :=
  match a with
  | some x => some x
  | none => b

/-- `_upsert_book`: `INSERT ... ON CONFLICT(isbn13) DO UPDATE SET
title = COALESCE(excluded.title, books.title), title_norm =
COALESCE(excluded.title_norm, books.title_norm)`, then `SELECT id ... WHERE
isbn13 = ?`.  Returns the new state and the row id. -/
def _upsert_book (db : DB) (isbn13 : PyStr) (title : Option PyStr) : DB × Nat :=
  let tnorm := title_norm title
  match db.books.find? (fun b => decide (b.isbn13 = isbn13)) with
  | some b =>
    ({ db with
        books := db.books.map (fun x =>
          if x.isbn13 = isbn13 then
            { x with title := coalesce title x.title,
                     title_norm := coalesce tnorm x.title_norm }
          else x) },
     b.id)
  | none =>
    ({ db with
        books := db.books ++ [{ id := db.next_book_id, isbn13 := isbn13,
                                title := title, title_norm := tnorm }],
        next_book_id := db.next_book_id + 1 },
     db.next_book_id)

/-- `_upsert_store_product`: `INSERT ... ON CONFLICT(store, store_product_id)
DO UPDATE SET url = excluded.url, book_id = COALESCE(excluded.book_id,
store_products.book_id)`, then `SELECT id ... WHERE store=? AND
store_product_id=?`. -/
def _upsert_store_product (db : DB) (store : PyStr) (store_product_id : PyStr)
    (url : PyStr) (book_id : Option Nat) : DB × Nat :=
  match db.store_products.find?
      (fun sp => decide (sp.store = store ∧ sp.store_product_id = store_product_id)) with
  | some sp =>
    ({ db with
        store_products := db.store_products.map (fun x =>
          if x.store = store ∧ x.store_product_id = store_product_id then
            { x with url := url, book_id := coalesce book_id x.book_id }
          else x) },
     sp.id)
  | none =>
    ({ db with
        store_products := db.store_products ++
          [{ id := db.next_sp_id, store := store, store_product_id := store_product_id,
             url := url, book_id := book_id }],
        next_sp_id := db.next_sp_id + 1 },
     db.next_sp_id)

/-- The rows of `offers` for one store product, in insertion order. -/
def history (db : DB) (spid : Nat) : List OfferRow :=
  db.offers.filter (fun o => decide (o.store_product_id = spid))

/-- One step of scanning for the `ORDER BY captured_at DESC, id DESC LIMIT 1`
row: keep the lexicographically `(captured_at, id)`-greater of the candidate
so far and the next row. -/
def pickLater (acc : Option OfferRow) (o : OfferRow) : Option OfferRow :=
  match acc with
  | none => some o
  | some a =>
    if a.captured_at < o.captured_at ∨
        (a.captured_at = o.captured_at ∧ a.id < o.id) then some o
    else some a

/-- `_last_offer`: `SELECT price_gel, in_stock FROM offers WHERE
store_product_id=? ORDER BY captured_at DESC, id DESC LIMIT 1`, i.e. the
lexicographically `(captured_at, id)`-greatest row for that store product. -/
def _last_offer (db : DB) (spid : Nat) : Option OfferRow :=
  (history db spid).foldl pickLater none

/-- The Python conversion of the observed tri-state stock into the stored
INTEGER: `None if offer.in_stock is None else (1 if offer.in_stock else 0)`. -/
def stockNorm (b : Option Bool) : Option Nat :=
  match b with
  | none => none
  | some v => some (if v then 1 else 0)

/-- Step 1 of `upsert_offer`: resolve the book when an ISBN is present
(`book_id = None` otherwise). -/
def ingest_book_id (db : DB) (offer : Offer) : DB × Option Nat :=
  match offer.isbn with
  | some isbn =>
    let r := _upsert_book db isbn offer.title
    (r.1, some r.2)
  | none => (db, none)

/-- The store-product row id the ingest pipeline resolves for an offer
(the value `sp_id` inside `upsert_offer`). -/
def ingest_sp_id (db : DB) (offer : Offer) : Nat :=
  let p := ingest_book_id db offer
  (_upsert_store_product p.1 offer.store offer.store_product_id offer.url p.2).2

/-- `upsert_offer` (the ingest entry point), with `now` the value
`datetime('now')` takes during the call: resolve the book (if ISBN present),
upsert the store product, and insert a snapshot iff the reading changed
versus `_last_offer`. -/
def upsert_offer (db : DB) (offer : Offer) (now : Nat) : DB :=
  let p := ingest_book_id db offer
  let q := _upsert_store_product p.1 offer.store offer.store_product_id offer.url p.2
  let db2 := q.1
  let sp_id := q.2
  let last := _last_offer db2 sp_id
  let cur_stock := stockNorm offer.in_stock
  let changed :=
    match last with
    | none => true
    | some l => decide (l.price_gel ≠ offer.price_gel) || decide (l.in_stock ≠ cur_stock)
  if changed then
    { db2 with
        offers := db2.offers ++
          [{ id := db2.next_offer_id, store_product_id := sp_id, captured_at := now,
             price_gel := offer.price_gel, in_stock := cur_stock }],
        next_offer_id := db2.next_offer_id + 1 }
  else db2

/-- The statement at which an injected failure (constraint violation,
connectivity) aborts the `upsert_offer` unit of work. -/
inductive Fault
  | nofault
  | atBook
  | atStoreProduct
  | atLastOffer
  | atInsert
deriving DecidableEq

/-- `upsert_offer` as the transaction body: statements mutate the pending
(uncommitted) state in order; a fault at a statement raises before that
statement runs, leaving the pending work uncommitted. -/
def upsert_offer_tx (db : DB) (offer : Offer) (now : Nat) (fault : Fault) :
    Except Unit DB :=
  if fault = Fault.atBook then Except.error () else
  let p := ingest_book_id db offer
  if fault = Fault.atStoreProduct then Except.error () else
  let q := _upsert_store_product p.1 offer.store offer.store_product_id offer.url p.2
  let db2 := q.1
  let sp_id := q.2
  if fault = Fault.atLastOffer then Except.error () else
  let last := _last_offer db2 sp_id
  let cur_stock := stockNorm offer.in_stock
  let changed :=
    match last with
    | none => true
    | some l => decide (l.price_gel ≠ offer.price_gel) || decide (l.in_stock ≠ cur_stock)
  if fault = Fault.atInsert then Except.error () else
  Except.ok
    (if changed then
      { db2 with
          offers := db2.offers ++
            [{ id := db2.next_offer_id, store_product_id := sp_id, captured_at := now,
               price_gel := offer.price_gel, in_stock := cur_stock }],
          next_offer_id := db2.next_offer_id + 1 }
    else db2)

/-- The state observable after the `upsert_offer` unit of work: the committed
state on success, and — because every statement of the transaction runs
between `BEGIN` and the final `commit` — the original committed state when
any statement failed (uncommitted changes are never visible to readers). -/
def upsert_offer_run (db : DB) (offer : Offer) (now : Nat) (fault : Fault) : DB :=
  match upsert_offer_tx db offer now fault with
  | Except.ok db' => db'
  | Except.error _ => db

/-- One row of the `compare` result: `sp.store, sp.url, o.price_gel,
o.in_stock, o.captured_at`. -/
structure OfferView where
  store : PyStr
  url : PyStr
  price_gel : Option Price
  in_stock : Option Nat
  captured_at : Nat
deriving DecidableEq

/-- `SELECT store_product_id, MAX(captured_at) FROM offers GROUP BY
store_product_id`, looked up for one store product (`none` when the product
has no snapshot, in which case the inner join drops it). -/
def maxCaptured? (db : DB) (spid : Nat) : Option Nat :=
  (history db spid).foldl
    (fun acc o =>
      match acc with
      | none => some o.captured_at
      | some m => some (max m o.captured_at))
    none

/-- SQLite `ORDER BY` key of `get_book_by_isbn`, as a Boolean "sorts no
later than": `(o.in_stock IS NULL) ASC` (SQLite sorts NULL first under ASC,
so the flag 0/1 puts null stock last), then `o.in_stock DESC` (NULL last
under DESC), then `o.price_gel ASC` (NULL first under ASC). -/
def sqlRowLeB (a b : OfferView) : Bool :=
  let na : Nat := if a.in_stock = none then 1 else 0
  let nb : Nat := if b.in_stock = none then 1 else 0
  if na ≠ nb then decide (na < nb)
  else if a.in_stock ≠ b.in_stock then
    -- both non-null here (the null flags agree): DESC on the stored integer
    match a.in_stock, b.in_stock with
    | some x, some y => decide (y < x)
    | some _, none => true
    | none, _ => false
  else
    match a.price_gel, b.price_gel with
    | none, _ => true
    | some _, none => false
    | some x, some y => decide (x ≤ y)

/-- The `ORDER BY` relation of `get_book_by_isbn` as a proposition. -/
def sqlRowLe (a b : OfferView) : Prop := sqlRowLeB a b = true

instance : DecidableRel sqlRowLe := fun a b =>
  inferInstanceAs (Decidable (sqlRowLeB a b = true))

/-- The column projection of the `get_book_by_isbn` join: `sp.store, sp.url,
o.price_gel, o.in_stock, o.captured_at`. -/
def mkView (sp : StoreProduct) (o : OfferRow) : OfferView :=
  { store := sp.store, url := sp.url, price_gel := o.price_gel,
    in_stock := o.in_stock, captured_at := o.captured_at }

/-- The join of `get_book_by_isbn`, before `ORDER BY`: for each store
product linked to the book, every `offers` row whose `captured_at` equals
the product's `MAX(captured_at)`, projected to an `OfferView`. -/
def offerViewsFor (db : DB) (bid : Nat) : List OfferView :=
  (db.store_products.filter (fun sp => decide (sp.book_id = some bid))).flatMap
    (fun sp =>
      (db.offers.filter (fun o =>
          decide (o.store_product_id = sp.id) &&
          decide (some o.captured_at = maxCaptured? db sp.id))).map (mkView sp))

/-- `get_book_by_isbn`: `None` when no book has this ISBN, otherwise the book
row plus the latest-per-store-product join ordered by the SQL key.  (SQL
leaves the relative order of `ORDER BY`-ties unspecified; the model fixes
one compliant order with a stable insertion sort.) -/
def get_book_by_isbn (db : DB) (isbn13 : PyStr) : Option (Book × List OfferView) :=
  match db.books.find? (fun b => decide (b.isbn13 = isbn13)) with
  | none => none
  | some book => some (book, List.insertionSort sqlRowLe (offerViewsFor db book.id))

/-- The id-descending order of `search_books` (`ORDER BY id DESC`). -/
def idDescLe (a b : Book) : Prop := b.id ≤ a.id

instance : DecidableRel idDescLe := fun a b =>
  inferInstanceAs (Decidable (b.id ≤ a.id))

/-- `search_books`: `qn = title_norm(q) or ""`, then
`SELECT id, isbn13, title FROM books WHERE title_norm LIKE '%qn%' ORDER BY
id DESC LIMIT limit`.  `NULL LIKE ...` is not true, so rows with a null
`title_norm` never match; on non-null rows the pattern means "contains `qn`
as a substring" (`title_norm` output contains no `%`/`_` wildcard and both
sides are already case-folded by normalization, so SQLite's
ASCII-case-insensitive `LIKE` coincides with plain containment). -/
def search_books (db : DB) (q : PyStr) (limit : Nat) :
    List (Nat × PyStr × Option PyStr) :=
  let qn := (title_norm (some q)).getD []
  ((List.insertionSort idDescLe
      (db.books.filter (fun b =>
        match b.title_norm with
        | none => false
        | some t => decide (qn <:+: t)))).take limit).map
    (fun b => (b.id, b.isbn13, b.title))

/-! ## Helper notions used by the claim theorems -/

/-- The derived-column invariant of a `books` row: `title_norm` is the
normalization of `title`. -/
def BookInSync (b : Book) : Prop := b.title_norm = title_norm b.title

instance (b : Book) : Decidable (BookInSync b) :=
  inferInstanceAs (Decidable (b.title_norm = title_norm b.title))

/-- The change condition of `upsert_offer` against a previous reading:
a snapshot is inserted iff there is no previous reading, or the price or the
normalized stock differs (exact equality on both). -/
def changedAgainst (last : Option OfferRow) (offer : Offer) : Prop :=
  match last with
  | none => True
  | some l => l.price_gel ≠ offer.price_gel ∨ l.in_stock ≠ stockNorm offer.in_stock

instance (last : Option OfferRow) (offer : Offer) : Decidable (changedAgainst last offer) :=
  match last with
  | none => isTrue trivial
  | some _ => inferInstanceAs (Decidable (_ ∨ _))

/-- The change-coalescing ledger invariant: within each store product's
history, consecutive snapshots differ in price or stock. -/
def SnapshotsCoalesced (db : DB) : Prop :=
  ∀ s, (history db s).Chain'
    (fun a b => a.price_gel ≠ b.price_gel ∨ a.in_stock ≠ b.in_stock)

/-- Well-formedness of the `offers` table that every state reachable through
`upsert_offer` satisfies when `now` is the current wall clock: rows are in
insertion order (ids strictly increasing, capture times nondecreasing), ids
are below the `AUTOINCREMENT` counter, and no capture time is in the
future. -/
def OffersWF (db : DB) (now : Nat) : Prop :=
  db.offers.Pairwise (fun a b => a.captured_at ≤ b.captured_at ∧ a.id < b.id) ∧
  (∀ o ∈ db.offers, o.id < db.next_offer_id) ∧
  (∀ o ∈ db.offers, o.captured_at ≤ now)

instance (db : DB) (now : Nat) : Decidable (OffersWF db now) :=
  inferInstanceAs (Decidable (_ ∧ _ ∧ _))

/-- The one-store-product database used by the C1 witness. -/
def dbC1 : DB := { DB.empty with store_products := [StoreProduct.mk 1 [115] [112] [117] (some 1)], next_sp_id := 2 }

/-- The one-book database used by the C2 witness. -/
def dbC2 : DB := { DB.empty with books := [Book.mk 1 [105] (some [97]) (some [97])], next_book_id := 2 }

/-- The two-book database used by the C10 witness: one searchable book, one
with a null normalized title. -/
def dbC10 : DB := { DB.empty with books := [Book.mk 1 [105] (some [97]) (some [97]), Book.mk 2 [106] (some [33]) none], next_book_id := 3 }

/-- The insertion-order relation on `offers` rows. -/
def offerOrd (a b : OfferRow) : Prop :=
  a.captured_at ≤ b.captured_at ∧ a.id < b.id

instance : DecidableRel offerOrd := fun a b =>
  inferInstanceAs (Decidable (a.captured_at ≤ b.captured_at ∧ a.id < b.id))

/-- The snapshot row `upsert_offer` would append for this offer at this
time. -/
def newSnap (db : DB) (offer : Offer) (now : Nat) : OfferRow :=
  { id := db.next_offer_id, store_product_id := ingest_sp_id db offer,
    captured_at := now, price_gel := offer.price_gel,
    in_stock := stockNorm offer.in_stock }

/-- The book/product/ledger state exhibiting a `captured_at` tie: one book,
one linked store product, two snapshots taken in the same clock second. -/
def dbTie : DB := { books := [Book.mk 1 [105] none none], store_products := [StoreProduct.mk 1 [115] [112] [117] (some 1)], offers := [OfferRow.mk 1 1 5 (some 10) (some 1), OfferRow.mk 2 1 5 (some 20) (some 1)], next_book_id := 2, next_sp_id := 2, next_offer_id := 3 }

/-- The tie-free comparison database used by the C5 witness (two linked
store products, distinct capture times within each history). -/
def dbC5 : DB := { books := [Book.mk 1 [105] none none], store_products := [StoreProduct.mk 1 [115] [49] [117] (some 1), StoreProduct.mk 2 [115] [50] [118] (some 1)], offers := [OfferRow.mk 1 1 5 (some 10) (some 1), OfferRow.mk 2 1 7 (some 12) (some 1), OfferRow.mk 3 2 6 (some 9) (some 0)], next_book_id := 2, next_sp_id := 3, next_offer_id := 4 }

/-- The SQL `ORDER BY` key of `get_book_by_isbn`, packed into a
lexicographic linear order: null-stock flag ascending, then the stored stock
integer descending (the dual order; the component is irrelevant on the
all-null group, where it is constant), then the price ascending with `NULL`
as bottom (SQLite sorts `NULL` first under `ASC`). -/
def sqlKey (v : OfferView) : Lex (Nat × Lex ((OrderDual Nat) × WithBot Price)) :=
  toLex ((if v.in_stock = none then 1 else 0),
    toLex (OrderDual.toDual (match v.in_stock with | some s => s | none => 0),
      match v.price_gel with | none => (⊥ : WithBot Price) | some p => (p : WithBot Price)))

/-- Price ascending with null prices first — the tertiary key the code
actually implements (SQLite `ASC` puts `NULL` before every value). -/
def priceNullsFirstLe : Option Price → Option Price → Prop
  | none, _ => True
  | some _, none => False
  | some x, some y => x ≤ y

instance : ∀ a b : Option Price, Decidable (priceNullsFirstLe a b)
  | none, _ => isTrue trivial
  | some _, none => isFalse (fun h => h)
  | some x, some y => inferInstanceAs (Decidable (x ≤ y))

/-- Price ascending with null prices last — the tertiary key the claim
states. -/
def priceNullsLastLe : Option Price → Option Price → Prop
  | none, none => True
  | none, some _ => False
  | some _, none => True
  | some x, some y => x ≤ y

instance : ∀ a b : Option Price, Decidable (priceNullsLastLe a b)
  | none, none => isTrue trivial
  | none, some _ => isFalse (fun h => h)
  | some _, none => isTrue trivial
  | some x, some y => inferInstanceAs (Decidable (x ≤ y))

/-- The claim's display order, as amended: primary — null stock after any
non-null stock; secondary — stock true (`1`) before stock false (`0`);
tertiary — price ascending with null prices *first*. -/
def claimRowLe (a b : OfferView) : Prop :=
  (if a.in_stock = none then 1 else 0 : Nat) < (if b.in_stock = none then 1 else 0) ∨
  ((if a.in_stock = none then 1 else 0 : Nat) = (if b.in_stock = none then 1 else 0) ∧
    ((if a.in_stock = some 1 then 0 else 1 : Nat) < (if b.in_stock = some 1 then 0 else 1) ∨
      ((if a.in_stock = some 1 then 0 else 1 : Nat) = (if b.in_stock = some 1 then 0 else 1) ∧
        priceNullsFirstLe a.price_gel b.price_gel)))

instance (a b : OfferView) : Decidable (claimRowLe a b) := by
  unfold claimRowLe
  infer_instance

/-- The claim's display order exactly as stated (null prices last). -/
def claimRowLeNullsLast (a b : OfferView) : Prop :=
  (if a.in_stock = none then 1 else 0 : Nat) < (if b.in_stock = none then 1 else 0) ∨
  ((if a.in_stock = none then 1 else 0 : Nat) = (if b.in_stock = none then 1 else 0) ∧
    ((if a.in_stock = some 1 then 0 else 1 : Nat) < (if b.in_stock = some 1 then 0 else 1) ∨
      ((if a.in_stock = some 1 then 0 else 1 : Nat) = (if b.in_stock = some 1 then 0 else 1) ∧
        priceNullsLastLe a.price_gel b.price_gel)))

instance (a b : OfferView) : Decidable (claimRowLeNullsLast a b) := by
  unfold claimRowLeNullsLast
  infer_instance

/-- The comparison database for the C6 counterexample: two linked store
products in the same stock group (`in_stock = 1`), one with a null price. -/
def dbNullPrice : DB := { books := [Book.mk 1 [105] none none], store_products := [StoreProduct.mk 1 [115] [49] [117] (some 1), StoreProduct.mk 2 [115] [50] [118] (some 1)], offers := [OfferRow.mk 1 1 5 (some 10) (some 1), OfferRow.mk 2 2 5 none (some 1)], next_book_id := 2, next_sp_id := 3, next_offer_id := 3 }

/-- A code point that can stand, outside spaces, in a normalized title: it
is kept by the catch-all class, is not whitespace, is a fixed point of
lowercasing, and is not `ё` (U+0451). -/
def goodCP (c : Nat) : Bool :=
  isKeptCP c && !(isSpaceCP c) && decide (pyLower c = c) && decide (c ≠ 0x451)

/-- The shape of a normalized title: only good code points separated by
single spaces, with no space at either end. -/
def NormalStr (l : PyStr) : Prop :=
  (∀ c ∈ l, c = 32 ∨ goodCP c = true) ∧
  l.Chain' (fun x y => x = 32 → y ≠ 32) ∧
  (∀ c, l.head? = some c → c ≠ 32) ∧
  (∀ c, l.getLast? = some c → c ≠ 32)

/-! ## C1 — store-product book link -/

/-- **C1, counterexample.**  A store product whose `book_id` was set to `1`
by a first resolve has it overwritten to `2` by a later resolve that passes
a different non-null `bookId`: the code's
`COALESCE(excluded.book_id, store_products.book_id)` lets the *last*
non-null writer win, not the first. -/
theorem C1_counterexample :
    ((_upsert_store_product DB.empty [115] [112] [117] (some 1)).1.store_products.map
        (fun x => x.book_id)) = [some 1] ∧
    ((_upsert_store_product (_upsert_store_product DB.empty [115] [112] [117] (some 1)).1
        [115] [112] [117] (some 2)).1.store_products.map (fun x => x.book_id)) = [some 2] := by
  decide

/-- **C1 (amended).**  For an existing store product, a later resolve call
returns the same row id and leaves `book_id` unchanged when the incoming
`bookId` is null (while overwriting `url`); when the incoming `bookId` is
non-null it always overwrites the stored link — the last non-null writer
wins, not the first. -/
theorem C1_book_link (db : DB) (store spid url : PyStr) (bid : Option Nat)
    (sp : StoreProduct)
    (hfind : db.store_products.find?
      (fun x => decide (x.store = store ∧ x.store_product_id = spid)) = some sp) :
    (_upsert_store_product db store spid url bid).2 = sp.id ∧
    (bid = none →
      (_upsert_store_product db store spid url bid).1.store_products =
        db.store_products.map (fun x =>
          if x.store = store ∧ x.store_product_id = spid then { x with url := url }
          else x)) ∧
    (∀ b, bid = some b →
      ∀ x ∈ (_upsert_store_product db store spid url bid).1.store_products,
        x.store = store → x.store_product_id = spid → x.book_id = some b) := by
  unfold _upsert_store_product
  simp only [hfind]
  refine ⟨by simp, ?_, ?_⟩
  · rintro rfl
    simp [coalesce]
  · rintro b rfl x hx hs hsp
    simp only [List.mem_map] at hx
    obtain ⟨y, hy, rfl⟩ := hx
    by_cases hkey : y.store = store ∧ y.store_product_id = spid
    · simp [hkey, coalesce]
    · simp only [if_neg hkey] at hs hsp ⊢
      exact absurd ⟨hs, hsp⟩ hkey

/-- **C1, witness.** -/
theorem C1_witness :
    (dbC1.store_products.find?
      (fun x => decide (x.store = [115] ∧ x.store_product_id = [112])) =
        some (StoreProduct.mk 1 [115] [112] [117] (some 1))) ∧
    ((_upsert_store_product dbC1 [115] [112] [118] none).2 = 1 ∧
      (none = (none : Option Nat) →
        (_upsert_store_product dbC1 [115] [112] [118] none).1.store_products =
          dbC1.store_products.map (fun x =>
            if x.store = [115] ∧ x.store_product_id = [112] then { x with url := [118] }
            else x)) ∧
      (∀ b, (none : Option Nat) = some b →
        ∀ x ∈ (_upsert_store_product dbC1 [115] [112] [118] none).1.store_products,
          x.store = [115] → x.store_product_id = [112] → x.book_id = some b)) :=
  ⟨by decide,
   C1_book_link dbC1 [115] [112] [118] none (StoreProduct.mk 1 [115] [112] [117] (some 1))
     (by decide)⟩

/-! ## C2 — book title resolution -/

/-- **C2, counterexample.**  A book whose stored title is `"a"` has it
overwritten to `"b"` by a later resolve carrying a different non-null
title: `COALESCE(excluded.title, books.title)` adopts the incoming value
whenever it is non-null, so a known title *is* overwritten. -/
theorem C2_counterexample :
    ((_upsert_book DB.empty [105] (some [97])).1.books.map (fun x => x.title)) =
      [some [97]] ∧
    ((_upsert_book (_upsert_book DB.empty [105] (some [97])).1 [105]
        (some [98])).1.books.map (fun x => x.title)) = [some [98]] := by
  decide

/-- **C2 (amended).**  On an existing book, resolve returns the stored row
id; an incoming null title leaves the row entirely unchanged, while an
incoming non-null title always becomes the stored title, overwriting any
previous value — last non-null writer wins, not title coalescing toward the
stored value. -/
theorem C2_title_update (db : DB) (isbn : PyStr) (title : Option PyStr) (b : Book)
    (hfind : db.books.find? (fun x => decide (x.isbn13 = isbn)) = some b) :
    (_upsert_book db isbn title).2 = b.id ∧
    (title = none → (_upsert_book db isbn title).1 = db) ∧
    (∀ t, title = some t →
      ∀ x ∈ (_upsert_book db isbn title).1.books, x.isbn13 = isbn → x.title = some t) := by
  unfold _upsert_book
  simp only [hfind]
  refine ⟨by simp, ?_, ?_⟩
  · rintro rfl
    simp only [title_norm, coalesce]
    have : db.books.map (fun x => if x.isbn13 = isbn then x else x) = db.books := by
      simp
    simp only [this]
  · rintro t rfl x hx hs
    simp only [List.mem_map] at hx
    obtain ⟨y, hy, rfl⟩ := hx
    by_cases hkey : y.isbn13 = isbn
    · simp [hkey, coalesce]
    · simp only [if_neg hkey] at hs ⊢
      exact absurd hs hkey

/-- **C2, witness.** -/
theorem C2_witness :
    (dbC2.books.find? (fun x => decide (x.isbn13 = [105])) =
      some (Book.mk 1 [105] (some [97]) (some [97]))) ∧
    ((_upsert_book dbC2 [105] (some [98])).2 = 1 ∧
      (some [98] = (none : Option PyStr) → (_upsert_book dbC2 [105] (some [98])).1 = dbC2) ∧
      (∀ t, some [98] = some t →
        ∀ x ∈ (_upsert_book dbC2 [105] (some [98])).1.books,
          x.isbn13 = [105] → x.title = some t)) :=
  ⟨by decide,
   C2_title_update dbC2 [105] (some [98]) (Book.mk 1 [105] (some [97]) (some [97]))
     (by decide)⟩

/-! ## C9 — the derived normalized-title column -/

/-- **C9, counterexample.**  Starting from the in-sync book
(`title = "a"`, `title_norm = "a"`), a resolve carrying the non-null title
`"!"` (whose normalization is null) leaves `title_norm = "a"` while setting
`title = "!"`: the two `COALESCE`s act independently, so the derived column
falls out of sync with the stored title. -/
theorem C9_counterexample :
    (_upsert_book dbC2 [105] (some [33])).1.books =
      [Book.mk 1 [105] (some [33]) (some [97])] ∧
    title_norm (some [33]) = none ∧
    ¬ BookInSync (Book.mk 1 [105] (some [33]) (some [97])) := by
  refine ⟨by decide, by decide, ?_⟩
  intro h
  exact absurd h (by decide)

/-- **C9 (amended).**  If every stored book row is in sync
(`title_norm = normalize(title)`), a resolve keeps every row in sync
*provided* the incoming title is null or normalizes to a non-null value;
the sole escape (incoming non-null title whose normalization is null, with
a non-null stored normalized title) is the counterexample above. -/
theorem C9_title_norm_sync (db : DB) (isbn : PyStr) (title : Option PyStr)
    (hsync : ∀ b ∈ db.books, BookInSync b)
    (hcase : title = none ∨ title_norm title ≠ none) :
    ∀ b ∈ (_upsert_book db isbn title).1.books, BookInSync b := by
  intro b hb
  unfold _upsert_book at hb
  cases hfind : db.books.find? (fun x => decide (x.isbn13 = isbn)) with
  | none =>
    simp only [hfind] at hb
    simp only [List.mem_append, List.mem_singleton] at hb
    rcases hb with hb | rfl
    · exact hsync b hb
    · exact rfl
  | some b0 =>
    simp only [hfind] at hb
    simp only [List.mem_map] at hb
    obtain ⟨y, hy, rfl⟩ := hb
    by_cases hkey : y.isbn13 = isbn
    · simp only [if_pos hkey]
      rcases hcase with rfl | hnn
      · simpa [coalesce, title_norm] using hsync y hy
      · cases htitle : title with
        | none => simp [htitle, title_norm] at hnn
        | some t =>
          subst htitle
          cases htn : title_norm (some t) with
          | none => exact absurd htn hnn
          | some tn =>
            simp only [BookInSync, coalesce, htn]
    · simp only [if_neg hkey]
      exact hsync y hy

/-- **C9, witness.** -/
theorem C9_witness :
    (∀ b ∈ dbC2.books, BookInSync b) ∧
    ((some [98] = (none : Option PyStr)) ∨ title_norm (some [98]) ≠ none) ∧
    (∀ b ∈ (_upsert_book dbC2 [105] (some [98])).1.books, BookInSync b) :=
  ⟨by decide, by decide,
   C9_title_norm_sync dbC2 [105] (some [98]) (by decide) (by decide)⟩

/-! ## C4 — transactional rollback of ingest -/

/-- **C4.**  If any statement of the `upsert_offer` unit of work fails —
the book upsert, the store-product upsert, the latest-snapshot lookup or the
snapshot insert — the transaction never reaches its final `commit`, so the
observable database state is exactly the state before the call: no partial
book, store-product or snapshot change is visible.  A fault-free run commits
and is the plain `upsert_offer`. -/
theorem C4_rollback (db : DB) (offer : Offer) (now : Nat) (fault : Fault)
    (hf : fault ≠ Fault.nofault) :
    upsert_offer_tx db offer now fault = Except.error () ∧
    upsert_offer_run db offer now fault = db ∧
    upsert_offer_run db offer now Fault.nofault = upsert_offer db offer now := by
  refine ⟨?_, ?_, ?_⟩
  · cases fault with
    | nofault => exact absurd rfl hf
    | atBook => rfl
    | atStoreProduct => rfl
    | atLastOffer => rfl
    | atInsert => rfl
  · cases fault with
    | nofault => exact absurd rfl hf
    | atBook => rfl
    | atStoreProduct => rfl
    | atLastOffer => rfl
    | atInsert => rfl
  · rfl

/-- **C4, witness.** -/
theorem C4_witness :
    (Fault.atLastOffer ≠ Fault.nofault) ∧
    (upsert_offer_tx DB.empty (Offer.mk [115] [112] [117] none none (some 100) (some true))
        0 Fault.atLastOffer = Except.error () ∧
      upsert_offer_run DB.empty (Offer.mk [115] [112] [117] none none (some 100) (some true))
        0 Fault.atLastOffer = DB.empty ∧
      upsert_offer_run DB.empty (Offer.mk [115] [112] [117] none none (some 100) (some true))
        0 Fault.nofault =
        upsert_offer DB.empty (Offer.mk [115] [112] [117] none none (some 100) (some true)) 0) :=
  ⟨by decide,
   C4_rollback DB.empty (Offer.mk [115] [112] [117] none none (some 100) (some true)) 0
     Fault.atLastOffer (by decide)⟩

/-! ## C10 — search over the normalized-title index -/

/-- **C10.**  Search only ever returns books whose `title_norm` is non-null
(a null normalized title makes a book unreachable by any query: `NULL LIKE
...` does not match); and a query that normalizes to null (empty,
whitespace-only, all-punctuation) makes the pattern the empty substring,
which matches *every* book with a non-null `title_norm` — up to the limit —
rather than matching none. -/
theorem C10_search (db : DB) (q : PyStr) (limit : Nat) :
    (∀ r ∈ search_books db q limit, ∃ b ∈ db.books,
        r = (b.id, b.isbn13, b.title) ∧ b.title_norm ≠ none) ∧
    (title_norm (some q) = none →
      (db.books.filter (fun b => decide (b.title_norm ≠ none))).length ≤ limit →
      ∀ b ∈ db.books, b.title_norm ≠ none →
        (b.id, b.isbn13, b.title) ∈ search_books db q limit) := by
  constructor
  · intro r hr
    unfold search_books at hr
    simp only [List.mem_map] at hr
    obtain ⟨b, hb, rfl⟩ := hr
    have hb1 : b ∈ List.insertionSort idDescLe
        (db.books.filter (fun b =>
          match b.title_norm with
          | none => false
          | some t => decide (((title_norm (some q)).getD []) <:+: t))) :=
      List.take_subset _ _ hb
    have hb2 := (List.perm_insertionSort idDescLe _).subset hb1
    have hb3 := List.mem_filter.mp hb2
    refine ⟨b, hb3.1, rfl, ?_⟩
    cases htn : b.title_norm with
    | none => rw [htn] at hb3; exact absurd hb3.2 (by simp)
    | some t => simp [htn]
  · intro hq hlen b hb hnn
    unfold search_books
    simp only [hq, Option.getD_none]
    have hfeq : db.books.filter (fun b =>
        match b.title_norm with
        | none => false
        | some t => decide (([] : PyStr) <:+: t)) =
        db.books.filter (fun b => decide (b.title_norm ≠ none)) := by
      apply List.filter_congr
      intro x _
      cases hx : x.title_norm with
      | none => simp
      | some t => simp [List.nil_infix]
    rw [hfeq]
    have hbf : b ∈ db.books.filter (fun b => decide (b.title_norm ≠ none)) :=
      List.mem_filter.mpr ⟨hb, by simpa using hnn⟩
    have hlensort :
        (List.insertionSort idDescLe
          (db.books.filter (fun b => decide (b.title_norm ≠ none)))).length ≤ limit := by
      rw [(List.perm_insertionSort idDescLe _).length_eq]
      exact hlen
    rw [List.take_of_length_le hlensort]
    exact List.mem_map.mpr
      ⟨b, (List.perm_insertionSort idDescLe _).mem_iff.mpr hbf, rfl⟩

/-- **C10, witness** (the query `"!"` normalizes to null and still finds
the one searchable book of `dbC10`). -/
theorem C10_witness :
    (title_norm (some [33]) = none) ∧
    ((dbC10.books.filter (fun b => decide (b.title_norm ≠ none))).length ≤ 20) ∧
    (((1 : Nat), ([105] : PyStr), (some [97] : Option PyStr)) ∈ search_books dbC10 [33] 20) :=
  ⟨by decide, by decide,
   (C10_search dbC10 [33] 20).2 (by decide) (by decide)
     (Book.mk 1 [105] (some [97]) (some [97])) (by decide) (by decide)⟩

/-! ## Ledger lemmas for C3 and C7 -/

theorem upsert_book_fields (db : DB) (isbn : PyStr) (title : Option PyStr) :
    (_upsert_book db isbn title).1.store_products = db.store_products ∧
    (_upsert_book db isbn title).1.offers = db.offers ∧
    (_upsert_book db isbn title).1.next_sp_id = db.next_sp_id ∧
    (_upsert_book db isbn title).1.next_offer_id = db.next_offer_id := by
  unfold _upsert_book
  cases db.books.find? (fun b => decide (b.isbn13 = isbn)) <;>
    exact ⟨rfl, rfl, rfl, rfl⟩

theorem ingest_book_fields (db : DB) (offer : Offer) :
    (ingest_book_id db offer).1.store_products = db.store_products ∧
    (ingest_book_id db offer).1.offers = db.offers ∧
    (ingest_book_id db offer).1.next_sp_id = db.next_sp_id ∧
    (ingest_book_id db offer).1.next_offer_id = db.next_offer_id := by
  unfold ingest_book_id
  cases offer.isbn with
  | none => exact ⟨rfl, rfl, rfl, rfl⟩
  | some isbn => exact upsert_book_fields db isbn offer.title

theorem upsert_sp_fields (db : DB) (store spid url : PyStr) (bid : Option Nat) :
    (_upsert_store_product db store spid url bid).1.offers = db.offers ∧
    (_upsert_store_product db store spid url bid).1.next_offer_id = db.next_offer_id := by
  unfold _upsert_store_product
  cases db.store_products.find?
      (fun sp => decide (sp.store = store ∧ sp.store_product_id = spid)) <;>
    exact ⟨rfl, rfl⟩

theorem history_congr {X Y : DB} (h : X.offers = Y.offers) (s : Nat) :
    history X s = history Y s := by
  unfold history
  rw [h]

theorem last_offer_congr {X Y : DB} (h : X.offers = Y.offers) (s : Nat) :
    _last_offer X s = _last_offer Y s := by
  unfold _last_offer
  rw [history_congr h]

theorem foldl_pickLater_some (t : List OfferRow) :
    ∀ a : OfferRow, (∀ x ∈ t, offerOrd a x) → t.Pairwise offerOrd →
      t.foldl pickLater (some a) = (a :: t).getLast? := by
  induction t with
  | nil => intro a _ _; rfl
  | cons b t' ih =>
    intro a hall hp
    have hab : offerOrd a b := hall b (List.mem_cons_self b t')
    have hstep : pickLater (some a) b = some b := by
      show (if a.captured_at < b.captured_at ∨
          (a.captured_at = b.captured_at ∧ a.id < b.id) then some b else some a) = some b
      rcases Nat.lt_or_ge a.captured_at b.captured_at with hlt | hge
      · rw [if_pos (Or.inl hlt)]
      · have heq : a.captured_at = b.captured_at := Nat.le_antisymm hab.1 hge
        rw [if_pos (Or.inr ⟨heq, hab.2⟩)]
    have hall' : ∀ x ∈ t', offerOrd b x := fun x hx =>
      (List.pairwise_cons.mp hp).1 x hx
    have hp' : t'.Pairwise offerOrd := (List.pairwise_cons.mp hp).2
    calc (b :: t').foldl pickLater (some a)
        = t'.foldl pickLater (pickLater (some a) b) := rfl
      _ = t'.foldl pickLater (some b) := by rw [hstep]
      _ = (b :: t').getLast? := ih b hall' hp'
      _ = (a :: b :: t').getLast? := List.getLast?_cons_cons.symm

theorem last_offer_eq_getLast (db : DB) (spid : Nat)
    (h : db.offers.Pairwise offerOrd) :
    _last_offer db spid = (history db spid).getLast? := by
  have hp : (history db spid).Pairwise offerOrd := List.Pairwise.filter _ h
  unfold _last_offer
  cases hh : history db spid with
  | nil => rfl
  | cons a t =>
    rw [hh] at hp
    exact foldl_pickLater_some t a (fun x hx => (List.pairwise_cons.mp hp).1 x hx)
      (List.pairwise_cons.mp hp).2

theorem upsert_offer_spec (db : DB) (offer : Offer) (now : Nat)
    (h : db.offers.Pairwise offerOrd) :
    (changedAgainst ((history db (ingest_sp_id db offer)).getLast?) offer →
      (upsert_offer db offer now).offers = db.offers ++ [newSnap db offer now] ∧
      (upsert_offer db offer now).next_offer_id = db.next_offer_id + 1) ∧
    (¬ changedAgainst ((history db (ingest_sp_id db offer)).getLast?) offer →
      (upsert_offer db offer now).offers = db.offers ∧
      (upsert_offer db offer now).next_offer_id = db.next_offer_id) := by
  simp only [upsert_offer]
  set q := _upsert_store_product (ingest_book_id db offer).1 offer.store
    offer.store_product_id offer.url (ingest_book_id db offer).2 with hq
  have hoff : q.1.offers = db.offers := by
    rw [hq]
    rw [(upsert_sp_fields _ _ _ _ _).1, (ingest_book_fields db offer).2.1]
  have hnext : q.1.next_offer_id = db.next_offer_id := by
    rw [hq]
    rw [(upsert_sp_fields _ _ _ _ _).2, (ingest_book_fields db offer).2.2.2]
  have hspid : q.2 = ingest_sp_id db offer := by rw [hq]; rfl
  rw [hspid, hoff, hnext]
  have hlast : _last_offer q.1 (ingest_sp_id db offer) =
      (history db (ingest_sp_id db offer)).getLast? := by
    rw [last_offer_congr hoff, last_offer_eq_getLast db _ h]
  rw [hlast]
  cases hl : (history db (ingest_sp_id db offer)).getLast? with
  | none =>
    refine ⟨fun _ => ?_, fun hn => absurd trivial hn⟩
    rw [if_pos rfl]
    exact ⟨rfl, rfl⟩
  | some l =>
    by_cases hc : l.price_gel ≠ offer.price_gel ∨ l.in_stock ≠ stockNorm offer.in_stock
    · refine ⟨fun _ => ?_, fun hn => absurd hc hn⟩
      have hb : (decide (l.price_gel ≠ offer.price_gel) ||
          decide (l.in_stock ≠ stockNorm offer.in_stock)) = true := by
        rcases hc with hc | hc <;> simp [hc]
      rw [if_pos hb]
      exact ⟨rfl, rfl⟩
    · refine ⟨fun hcc => absurd hcc hc, fun _ => ?_⟩
      have hb : ¬ ((decide (l.price_gel ≠ offer.price_gel) ||
          decide (l.in_stock ≠ stockNorm offer.in_stock)) = true) := by
        push_neg at hc
        simp [hc.1, hc.2]
      rw [if_neg hb]
      exact ⟨hoff, hnext⟩

theorem OffersWF_upsert (db : DB) (offer : Offer) (now t : Nat)
    (hwf : OffersWF db now) (hnt : now ≤ t) :
    OffersWF (upsert_offer db offer t) t := by
  obtain ⟨hp, hid, htime⟩ := hwf
  have hspec := upsert_offer_spec db offer t hp
  by_cases hc : changedAgainst ((history db (ingest_sp_id db offer)).getLast?) offer
  · obtain ⟨ho, hn⟩ := hspec.1 hc
    refine ⟨?_, ?_, ?_⟩
    · rw [ho]
      refine List.pairwise_append.mpr ⟨hp, List.pairwise_singleton _ _, ?_⟩
      intro a ha b hb
      rw [List.mem_singleton] at hb
      subst hb
      exact ⟨Nat.le_trans (htime a ha) hnt, hid a ha⟩
    · intro o ho'
      rw [ho] at ho'
      rw [hn]
      rcases List.mem_append.mp ho' with hmem | hmem
      · exact Nat.lt_trans (hid o hmem) (Nat.lt_succ_self _)
      · rw [List.mem_singleton] at hmem
        subst hmem
        exact Nat.lt_succ_self _
    · intro o ho'
      rw [ho] at ho'
      rcases List.mem_append.mp ho' with hmem | hmem
      · exact Nat.le_trans (htime o hmem) hnt
      · rw [List.mem_singleton] at hmem
        subst hmem
        exact Nat.le_refl _
  · obtain ⟨ho, hn⟩ := hspec.2 hc
    refine ⟨?_, ?_, ?_⟩
    · rw [ho]; exact hp
    · intro o ho'
      rw [ho] at ho'
      rw [hn]
      exact hid o ho'
    · intro o ho'
      rw [ho] at ho'
      exact Nat.le_trans (htime o ho') hnt

/-! ## C3 — change-coalesced snapshot insertion -/

/-- **C3.**  Under a well-formed ledger, `upsert_offer` appends exactly one
snapshot — with the observed price and the stock normalized to
null/true/false — iff no prior snapshot exists for the resolved store
product or the price or the normalized stock differs from the latest
snapshot (exact equality on both); otherwise the ledger is untouched.
Consequently the change-coalescing invariant is preserved: consecutive
snapshots of one store product never carry identical `(price, in_stock)`. -/
theorem C3_change_detection (db : DB) (offer : Offer) (now : Nat)
    (hwf : OffersWF db now) :
    (changedAgainst ((history db (ingest_sp_id db offer)).getLast?) offer ↔
      (upsert_offer db offer now).offers = db.offers ++ [newSnap db offer now]) ∧
    (¬ changedAgainst ((history db (ingest_sp_id db offer)).getLast?) offer →
      (upsert_offer db offer now).offers = db.offers) ∧
    (SnapshotsCoalesced db → SnapshotsCoalesced (upsert_offer db offer now)) := by
  have hspec := upsert_offer_spec db offer now hwf.1
  refine ⟨⟨fun hc => (hspec.1 hc).1, ?_⟩, fun hn => (hspec.2 hn).1, ?_⟩
  · intro heq
    by_cases hc : changedAgainst ((history db (ingest_sp_id db offer)).getLast?) offer
    · exact hc
    · exfalso
      have h0 := (hspec.2 hc).1
      rw [h0] at heq
      have : db.offers.length = db.offers.length + 1 := by
        conv_lhs => rw [heq]
        rw [List.length_append, List.length_singleton]
      omega
  · intro hSC s
    by_cases hc : changedAgainst ((history db (ingest_sp_id db offer)).getLast?) offer
    · have ho := (hspec.1 hc).1
      have hh : history (upsert_offer db offer now) s =
          history db s ++ (if (newSnap db offer now).store_product_id = s
            then [newSnap db offer now] else []) := by
        unfold history
        rw [ho, List.filter_append]
        congr 1
        by_cases hs : (newSnap db offer now).store_product_id = s
        · simp [hs]
        · simp [hs]
      rw [hh]
      by_cases hs : (newSnap db offer now).store_product_id = s
      · rw [if_pos hs]
        refine List.chain'_append.mpr ⟨hSC s, List.chain'_singleton _, ?_⟩
        intro x hx y hy
        rw [List.head?_cons, Option.mem_some_iff] at hy
        subst hy
        have hsp : (newSnap db offer now).store_product_id = ingest_sp_id db offer := rfl
        have hseq : s = ingest_sp_id db offer := by rw [← hs, hsp]
        subst hseq
        rw [hx] at hc
        simpa [changedAgainst, newSnap] using hc
      · rw [if_neg hs, List.append_nil]
        exact hSC s
    · have ho := (hspec.2 hc).1
      have hh : history (upsert_offer db offer now) s = history db s :=
        history_congr ho s
      rw [hh]
      exact hSC s

/-- **C3, witness.** -/
theorem C3_witness :
    OffersWF DB.empty 0 ∧
    ((changedAgainst ((history DB.empty
          (ingest_sp_id DB.empty
            (Offer.mk [115] [112] [117] none none (some 100) (some true)))).getLast?)
        (Offer.mk [115] [112] [117] none none (some 100) (some true)) ↔
      (upsert_offer DB.empty (Offer.mk [115] [112] [117] none none (some 100) (some true))
          0).offers =
        DB.empty.offers ++
          [newSnap DB.empty (Offer.mk [115] [112] [117] none none (some 100) (some true)) 0]) ∧
    (¬ changedAgainst ((history DB.empty
          (ingest_sp_id DB.empty
            (Offer.mk [115] [112] [117] none none (some 100) (some true)))).getLast?)
        (Offer.mk [115] [112] [117] none none (some 100) (some true)) →
      (upsert_offer DB.empty (Offer.mk [115] [112] [117] none none (some 100) (some true))
          0).offers = DB.empty.offers) ∧
    (SnapshotsCoalesced DB.empty →
      SnapshotsCoalesced (upsert_offer DB.empty
        (Offer.mk [115] [112] [117] none none (some 100) (some true)) 0))) :=
  ⟨by decide,
   C3_change_detection DB.empty (Offer.mk [115] [112] [117] none none (some 100) (some true))
     0 (by decide)⟩

/-! ## Store-product resolution stability, and C7 -/

theorem find?_map_keyfix {α : Type} (l : List α) (p : α → Bool) (f : α → α)
    (hf : ∀ x, p (f x) = p x) : (l.map f).find? p = (l.find? p).map f := by
  induction l with
  | nil => rfl
  | cons a t ih =>
    rw [List.map_cons, List.find?_cons, List.find?_cons, hf a]
    cases hp : p a with
    | true => rfl
    | false => exact ih

theorem sp_find_after_upsert (db : DB) (store spid url : PyStr) (bid : Option Nat) :
    ∃ sp', (_upsert_store_product db store spid url bid).1.store_products.find?
        (fun sp => decide (sp.store = store ∧ sp.store_product_id = spid)) = some sp' ∧
      sp'.id = (_upsert_store_product db store spid url bid).2 := by
  unfold _upsert_store_product
  cases hf : db.store_products.find?
      (fun sp => decide (sp.store = store ∧ sp.store_product_id = spid)) with
  | some sp =>
    refine ⟨{ sp with url := url, book_id := coalesce bid sp.book_id }, ?_, rfl⟩
    rw [find?_map_keyfix db.store_products _ _ ?_]
    · rw [hf, Option.map_some']
      have hsp := List.find?_some hf
      rw [decide_eq_true_eq] at hsp
      rw [if_pos hsp]
    · intro x
      by_cases hk : x.store = store ∧ x.store_product_id = spid
      · simp [hk]
      · simp [if_neg hk]
  | none =>
    refine ⟨{ id := db.next_sp_id, store := store, store_product_id := spid,
              url := url, book_id := bid }, ?_, rfl⟩
    rw [List.find?_append, hf, Option.none_or]
    rw [List.find?_cons]
    have : decide (store = store ∧ spid = spid) = true := by simp
    rw [this]

theorem upsert_offer_sp_table (db : DB) (offer : Offer) (now : Nat) :
    (upsert_offer db offer now).store_products =
      (_upsert_store_product (ingest_book_id db offer).1 offer.store
        offer.store_product_id offer.url (ingest_book_id db offer).2).1.store_products ∧
    (upsert_offer db offer now).next_sp_id =
      (_upsert_store_product (ingest_book_id db offer).1 offer.store
        offer.store_product_id offer.url (ingest_book_id db offer).2).1.next_sp_id := by
  simp only [upsert_offer]
  constructor <;> split <;> rfl

theorem ingest_sp_id_eq (db : DB) (offer : Offer) :
    ingest_sp_id db offer =
      match db.store_products.find? (fun sp =>
        decide (sp.store = offer.store ∧
          sp.store_product_id = offer.store_product_id)) with
      | some sp => sp.id
      | none => db.next_sp_id := by
  simp only [ingest_sp_id, _upsert_store_product]
  rw [(ingest_book_fields db offer).1]
  cases hf : db.store_products.find? (fun sp =>
      decide (sp.store = offer.store ∧
        sp.store_product_id = offer.store_product_id)) with
  | some sp => rfl
  | none => exact (ingest_book_fields db offer).2.2.1

theorem ingest_sp_id_stable (db : DB) (offer : Offer) (now : Nat) :
    ingest_sp_id (upsert_offer db offer now) offer = ingest_sp_id db offer := by
  rw [ingest_sp_id_eq (upsert_offer db offer now) offer]
  rw [(upsert_offer_sp_table db offer now).1]
  obtain ⟨sp', hfind, hid⟩ := sp_find_after_upsert (ingest_book_id db offer).1 offer.store
    offer.store_product_id offer.url (ingest_book_id db offer).2
  rw [hfind]
  exact hid

theorem OffersWF_mono (db : DB) (t t' : Nat) (h : OffersWF db t) (ht : t ≤ t') :
    OffersWF db t' :=
  ⟨h.1, h.2.1, fun o ho => Nat.le_trans (h.2.2 o ho) ht⟩

theorem history_after_insert (db : DB) (offer : Offer) (now : Nat)
    (h : (upsert_offer db offer now).offers = db.offers ++ [newSnap db offer now]) :
    history (upsert_offer db offer now) (ingest_sp_id db offer) =
      history db (ingest_sp_id db offer) ++ [newSnap db offer now] := by
  unfold history
  rw [h, List.filter_append]
  congr 1
  have hsp : (newSnap db offer now).store_product_id = ingest_sp_id db offer := rfl
  simp [hsp]

/-! ## C7 — ingest idempotence -/

/-- **C7.**  Ingesting the identical observed offer twice in succession (with
a nondecreasing wall clock) leaves the ledger of the second call exactly as
the first call left it — the second call inserts zero snapshot rows — and if
the resolved store product had no snapshot before, the two calls leave it
with exactly one. -/
theorem C7_ingest_twice (db : DB) (offer : Offer) (t1 t2 : Nat)
    (hwf : OffersWF db t1) (ht : t1 ≤ t2) :
    (upsert_offer (upsert_offer db offer t1) offer t2).offers =
      (upsert_offer db offer t1).offers ∧
    (history db (ingest_sp_id db offer) = [] →
      (history (upsert_offer db offer t1) (ingest_sp_id db offer)).length = 1) := by
  have hwf1 : OffersWF (upsert_offer db offer t1) t2 :=
    OffersWF_mono _ t1 t2 (OffersWF_upsert db offer t1 t1 hwf (Nat.le_refl t1)) ht
  have hspec := upsert_offer_spec db offer t1 hwf.1
  have hspec1 := upsert_offer_spec (upsert_offer db offer t1) offer t2 hwf1.1
  have hstable : ingest_sp_id (upsert_offer db offer t1) offer = ingest_sp_id db offer :=
    ingest_sp_id_stable db offer t1
  constructor
  · have hnc : ¬ changedAgainst
        ((history (upsert_offer db offer t1)
          (ingest_sp_id (upsert_offer db offer t1) offer)).getLast?) offer := by
      rw [hstable]
      by_cases hc : changedAgainst
          ((history db (ingest_sp_id db offer)).getLast?) offer
      · have hh := history_after_insert db offer t1 (hspec.1 hc).1
        rw [hh, List.getLast?_concat]
        intro hcc
        simp only [changedAgainst] at hcc
        rcases hcc with h1 | h2
        · exact h1 rfl
        · exact h2 rfl
      · have hh : history (upsert_offer db offer t1) (ingest_sp_id db offer) =
            history db (ingest_sp_id db offer) :=
          history_congr (hspec.2 hc).1 _
        rw [hh]
        exact hc
    exact (hspec1.2 hnc).1
  · intro hemp
    have hc : changedAgainst ((history db (ingest_sp_id db offer)).getLast?) offer := by
      rw [hemp]
      exact trivial
    have hh := history_after_insert db offer t1 (hspec.1 hc).1
    rw [hh, hemp]
    rfl

/-- **C7, witness.** -/
theorem C7_witness :
    OffersWF DB.empty 0 ∧ (0 : Nat) ≤ 1 ∧
    ((upsert_offer (upsert_offer DB.empty
        (Offer.mk [115] [112] [117] none none (some 100) (some true)) 0)
        (Offer.mk [115] [112] [117] none none (some 100) (some true)) 1).offers =
      (upsert_offer DB.empty
        (Offer.mk [115] [112] [117] none none (some 100) (some true)) 0).offers ∧
    (history DB.empty (ingest_sp_id DB.empty
        (Offer.mk [115] [112] [117] none none (some 100) (some true))) = [] →
      (history (upsert_offer DB.empty
          (Offer.mk [115] [112] [117] none none (some 100) (some true)) 0)
        (ingest_sp_id DB.empty
          (Offer.mk [115] [112] [117] none none (some 100) (some true)))).length = 1)) :=
  ⟨by decide, by decide,
   C7_ingest_twice DB.empty (Offer.mk [115] [112] [117] none none (some 100) (some true))
     0 1 (by decide) (by decide)⟩

/-! ## Latest-snapshot lemmas for C5 -/

theorem foldl_pickLater_mem_max (t : List OfferRow) :
    ∀ a l : OfferRow, t.foldl pickLater (some a) = some l →
      (l = a ∨ l ∈ t) ∧ a.captured_at ≤ l.captured_at ∧
        ∀ o ∈ t, o.captured_at ≤ l.captured_at := by
  induction t with
  | nil =>
    intro a l h
    injection h with h
    subst h
    exact ⟨Or.inl rfl, Nat.le_refl _, by intro o ho; cases ho⟩
  | cons b t' ih =>
    intro a l h
    have hstep : ∃ c, pickLater (some a) b = some c ∧ (c = a ∨ c = b) ∧
        a.captured_at ≤ c.captured_at ∧ b.captured_at ≤ c.captured_at := by
      show ∃ c, (if a.captured_at < b.captured_at ∨
          (a.captured_at = b.captured_at ∧ a.id < b.id) then some b else some a) = some c ∧ _
      by_cases hcond : a.captured_at < b.captured_at ∨
          (a.captured_at = b.captured_at ∧ a.id < b.id)
      · refine ⟨b, by rw [if_pos hcond], Or.inr rfl, ?_, Nat.le_refl _⟩
        rcases hcond with hlt | ⟨heq, _⟩
        · exact Nat.le_of_lt hlt
        · exact Nat.le_of_eq heq
      · refine ⟨a, by rw [if_neg hcond], Or.inl rfl, Nat.le_refl _, ?_⟩
        push_neg at hcond
        exact hcond.1
    obtain ⟨c, hc, hca, hac, hbc⟩ := hstep
    have h' : t'.foldl pickLater (some c) = some l := by
      have : (b :: t').foldl pickLater (some a) = t'.foldl pickLater (pickLater (some a) b) :=
        rfl
      rw [this, hc] at h
      exact h
    obtain ⟨hmem, hcl, hall⟩ := ih c l h'
    refine ⟨?_, Nat.le_trans hac hcl, ?_⟩
    · rcases hmem with rfl | hmem
      · rcases hca with rfl | rfl
        · exact Or.inl rfl
        · exact Or.inr (List.mem_cons_self _ _)
      · exact Or.inr (List.mem_cons_of_mem _ hmem)
    · intro o ho
      rcases List.mem_cons.mp ho with rfl | ho'
      · exact Nat.le_trans hbc hcl
      · exact hall o ho'

theorem last_offer_mem_max (db : DB) (spid : Nat) (l : OfferRow)
    (h : _last_offer db spid = some l) :
    l ∈ history db spid ∧ ∀ o ∈ history db spid, o.captured_at ≤ l.captured_at := by
  unfold _last_offer at h
  cases hh : history db spid with
  | nil => rw [hh] at h; cases h
  | cons a t =>
    rw [hh] at h
    obtain ⟨hmem, hal, hall⟩ := foldl_pickLater_mem_max t a l h
    refine ⟨?_, ?_⟩
    · rcases hmem with rfl | hmem
      · exact List.mem_cons_self _ _
      · exact List.mem_cons_of_mem _ hmem
    · intro o ho
      rcases List.mem_cons.mp ho with rfl | ho'
      · exact hal
      · exact hall o ho'

theorem last_offer_isSome (db : DB) (spid : Nat) (h : history db spid ≠ []) :
    ∃ l, _last_offer db spid = some l := by
  unfold _last_offer
  cases hh : history db spid with
  | nil => exact absurd hh h
  | cons a t =>
    clear hh h
    induction t generalizing a with
    | nil => exact ⟨a, rfl⟩
    | cons b t' ih =>
      obtain ⟨l, hl⟩ := ih (match some a with
        | none => b
        | some x => if x.captured_at < b.captured_at ∨
            (x.captured_at = b.captured_at ∧ x.id < b.id) then b else x)
      refine ⟨l, ?_⟩
      have : (a :: b :: t').foldl pickLater none =
          t'.foldl pickLater (pickLater (some a) b) := rfl
      rw [this]
      have hpl : pickLater (some a) b = some (if a.captured_at < b.captured_at ∨
          (a.captured_at = b.captured_at ∧ a.id < b.id) then b else a) := by
        show (if a.captured_at < b.captured_at ∨
            (a.captured_at = b.captured_at ∧ a.id < b.id) then some b else some a) = _
        by_cases hcond : a.captured_at < b.captured_at ∨
            (a.captured_at = b.captured_at ∧ a.id < b.id)
        · rw [if_pos hcond, if_pos hcond]
        · rw [if_neg hcond, if_neg hcond]
      rw [hpl]
      exact hl

theorem foldl_maxCaptured_some (t : List OfferRow) :
    ∀ m : Nat, t.foldl (fun acc o =>
        match acc with
        | none => some o.captured_at
        | some m => some (max m o.captured_at)) (some m) =
      some (t.foldl (fun m o => max m o.captured_at) m) := by
  induction t with
  | nil => intro m; rfl
  | cons b t' ih => intro m; exact ih (max m b.captured_at)

theorem foldl_max_ub (t : List OfferRow) :
    ∀ m : Nat, m ≤ t.foldl (fun m o => max m o.captured_at) m ∧
      ∀ o ∈ t, o.captured_at ≤ t.foldl (fun m o => max m o.captured_at) m := by
  induction t with
  | nil => intro m; exact ⟨Nat.le_refl _, by intro o ho; cases ho⟩
  | cons b t' ih =>
    intro m
    obtain ⟨h1, h2⟩ := ih (max m b.captured_at)
    refine ⟨Nat.le_trans (Nat.le_max_left _ _) h1, ?_⟩
    intro o ho
    rcases List.mem_cons.mp ho with rfl | ho'
    · exact Nat.le_trans (Nat.le_max_right m _) h1
    · exact h2 o ho'

theorem foldl_max_attained (t : List OfferRow) :
    ∀ m : Nat, t.foldl (fun m o => max m o.captured_at) m = m ∨
      ∃ o ∈ t, t.foldl (fun m o => max m o.captured_at) m = o.captured_at := by
  induction t with
  | nil => intro m; exact Or.inl rfl
  | cons b t' ih =>
    intro m
    have hc : (b :: t').foldl (fun m o => max m o.captured_at) m =
        t'.foldl (fun m o => max m o.captured_at) (max m b.captured_at) := rfl
    rw [hc]
    rcases ih (max m b.captured_at) with h | ⟨o, ho, hfo⟩
    · rcases Nat.le_total m b.captured_at with hmb | hbm
      · refine Or.inr ⟨b, List.mem_cons_self _ _, ?_⟩
        rw [h]
        exact Nat.max_eq_right hmb
      · refine Or.inl ?_
        rw [h]
        exact Nat.max_eq_left hbm
    · exact Or.inr ⟨o, List.mem_cons_of_mem _ ho, hfo⟩

theorem maxCaptured?_eq (db : DB) (spid : Nat) (l : OfferRow)
    (h1 : l ∈ history db spid)
    (h2 : ∀ o ∈ history db spid, o.captured_at ≤ l.captured_at) :
    maxCaptured? db spid = some l.captured_at := by
  unfold maxCaptured?
  cases hh : history db spid with
  | nil => rw [hh] at h1; cases h1
  | cons a t =>
    rw [hh] at h1 h2
    have hfold : (a :: t).foldl (fun acc o =>
        match acc with
        | none => some o.captured_at
        | some m => some (max m o.captured_at)) none =
        some (t.foldl (fun m o => max m o.captured_at) a.captured_at) :=
      foldl_maxCaptured_some t a.captured_at
    rw [hfold]
    congr 1
    have hub := foldl_max_ub t a.captured_at
    have hle : l.captured_at ≤ t.foldl (fun m o => max m o.captured_at) a.captured_at := by
      rcases List.mem_cons.mp h1 with rfl | hl'
      · exact hub.1
      · exact hub.2 l hl'
    have hge : t.foldl (fun m o => max m o.captured_at) a.captured_at ≤ l.captured_at := by
      rcases foldl_max_attained t a.captured_at with h | ⟨o, ho, hfo⟩
      · rw [h]
        exact h2 a (List.mem_cons_self _ _)
      · rw [hfo]
        exact h2 o (List.mem_cons_of_mem _ ho)
    exact Nat.le_antisymm hge hle

theorem filter_capt_eq_singleton (H : List OfferRow) (l : OfferRow)
    (hl : l ∈ H) (hp : H.Pairwise (fun a b => a.captured_at ≠ b.captured_at)) :
    H.filter (fun o => decide (o.captured_at = l.captured_at)) = [l] := by
  induction H with
  | nil => cases hl
  | cons x t ih =>
    have hx := List.pairwise_cons.mp hp
    rcases List.mem_cons.mp hl with rfl | hlt
    · rw [List.filter_cons_of_pos (by simp)]
      have : t.filter (fun o => decide (o.captured_at = l.captured_at)) = [] := by
        rw [List.filter_eq_nil_iff]
        intro o ho
        simp only [decide_eq_true_eq]
        exact fun he => (hx.1 o ho) he.symm
      rw [this]
    · rw [List.filter_cons_of_neg ?_]
      · exact ih hlt hx.2
      · simp only [decide_eq_true_eq]
        exact hx.1 l hlt

theorem flatMap_congr' {α β : Type} (l : List α) (f g : α → List β)
    (h : ∀ a ∈ l, f a = g a) : l.flatMap f = l.flatMap g := by
  induction l with
  | nil => rfl
  | cons a t ih =>
    rw [List.flatMap_cons, List.flatMap_cons, h a (List.mem_cons_self _ _),
      ih (fun x hx => h x (List.mem_cons_of_mem _ hx))]

theorem join_rows_eq_last (db : DB) (spid : Nat)
    (hp : (history db spid).Pairwise (fun a b => a.captured_at ≠ b.captured_at)) :
    db.offers.filter (fun o => decide (o.store_product_id = spid) &&
        decide (some o.captured_at = maxCaptured? db spid)) =
      match _last_offer db spid with
      | none => []
      | some l => [l] := by
  have hff : db.offers.filter (fun o => decide (o.store_product_id = spid) &&
      decide (some o.captured_at = maxCaptured? db spid)) =
      (history db spid).filter (fun o =>
        decide (some o.captured_at = maxCaptured? db spid)) := by
    unfold history
    rw [List.filter_filter]
    apply List.filter_congr
    intro x _
    exact Bool.and_comm _ _
  rw [hff]
  cases hlast : _last_offer db spid with
  | none =>
    have hnil : history db spid = [] := by
      by_contra hne
      obtain ⟨l, hl⟩ := last_offer_isSome db spid hne
      rw [hlast] at hl
      cases hl
    rw [hnil]
    rfl
  | some l =>
    obtain ⟨hmem, hub⟩ := last_offer_mem_max db spid l hlast
    have hmax : maxCaptured? db spid = some l.captured_at :=
      maxCaptured?_eq db spid l hmem hub
    have hpredeq : ∀ o ∈ history db spid,
        (decide (some o.captured_at = maxCaptured? db spid)) =
          (decide (o.captured_at = l.captured_at)) := by
      intro o _
      rw [hmax]
      simp
    rw [List.filter_congr hpredeq]
    exact filter_capt_eq_singleton (history db spid) l hmem hp

/-! ## C5 — one latest snapshot per linked store product -/

/-- **C5, counterexample.**  With two snapshots of the single linked store
product sharing one `captured_at` (the wall clock has second resolution),
`get_book_by_isbn` returns *two* `OfferView`s for that one product: the SQL
join keeps every row at `MAX(captured_at)` and has no surrogate-id
tie-break. -/
theorem C5_counterexample :
    (get_book_by_isbn dbTie [105]).map (fun r => r.2.length) = some 2 ∧
    dbTie.store_products.length = 1 := by decide

/-- **C5 (amended).**  Provided no two snapshots of a linked store product
share a `captured_at`, `compareByIsbn` returns, per linked store product
with at least one snapshot, exactly one `OfferView` — that of `_last_offer`,
the snapshot with the greatest `captured_at` (the fold's `(captured_at, id)`
tie-break never fires under the proviso; without it, every row tied at the
maximal `captured_at` produces its own view, as the counterexample shows).
The returned list is a permutation of that per-product join. -/
theorem C5_latest_per_product (db : DB) (isbn : PyStr) (book : Book)
    (views : List OfferView)
    (hget : get_book_by_isbn db isbn = some (book, views))
    (hdist : ∀ sp ∈ db.store_products, sp.book_id = some book.id →
      (history db sp.id).Pairwise (fun a b => a.captured_at ≠ b.captured_at)) :
    views.Perm (offerViewsFor db book.id) ∧
    offerViewsFor db book.id =
      (db.store_products.filter (fun sp => decide (sp.book_id = some book.id))).flatMap
        (fun sp =>
          match _last_offer db sp.id with
          | none => []
          | some l => [mkView sp l]) ∧
    (∀ sp ∈ db.store_products, ∀ l, _last_offer db sp.id = some l →
      l ∈ history db sp.id ∧ ∀ o ∈ history db sp.id, o.captured_at ≤ l.captured_at) := by
  have hviews : views = List.insertionSort sqlRowLe (offerViewsFor db book.id) := by
    unfold get_book_by_isbn at hget
    cases hf : db.books.find? (fun b => decide (b.isbn13 = isbn)) with
    | none => rw [hf] at hget; cases hget
    | some b0 =>
      rw [hf] at hget
      injection hget with hget
      have hb : b0 = book := congrArg Prod.fst hget
      have hv : List.insertionSort sqlRowLe (offerViewsFor db b0.id) = views :=
        congrArg Prod.snd hget
      rw [← hv, hb]
  refine ⟨?_, ?_, ?_⟩
  · rw [hviews]
    exact List.perm_insertionSort sqlRowLe _
  · unfold offerViewsFor
    apply flatMap_congr'
    intro sp hsp
    have hspm := List.mem_filter.mp hsp
    have hlink : sp.book_id = some book.id := by
      have := hspm.2
      rwa [decide_eq_true_eq] at this
    rw [join_rows_eq_last db sp.id (hdist sp hspm.1 hlink)]
    cases _last_offer db sp.id with
    | none => rfl
    | some l => rfl
  · intro sp _ l hl
    exact last_offer_mem_max db sp.id l hl

/-- **C5, witness.** -/
theorem C5_witness :
    (get_book_by_isbn dbC5 [105] =
      some (Book.mk 1 [105] none none,
        List.insertionSort sqlRowLe (offerViewsFor dbC5 1))) ∧
    (∀ sp ∈ dbC5.store_products, sp.book_id = some 1 →
      (history dbC5 sp.id).Pairwise (fun a b => a.captured_at ≠ b.captured_at)) ∧
    ((List.insertionSort sqlRowLe (offerViewsFor dbC5 1)).Perm (offerViewsFor dbC5 1) ∧
      offerViewsFor dbC5 1 =
        (dbC5.store_products.filter (fun sp => decide (sp.book_id = some 1))).flatMap
          (fun sp =>
            match _last_offer dbC5 sp.id with
            | none => []
            | some l => [mkView sp l]) ∧
      (∀ sp ∈ dbC5.store_products, ∀ l, _last_offer dbC5 sp.id = some l →
        l ∈ history dbC5 sp.id ∧
          ∀ o ∈ history dbC5 sp.id, o.captured_at ≤ l.captured_at)) :=
  ⟨by decide, by decide,
   C5_latest_per_product dbC5 [105] (Book.mk 1 [105] none none)
     (List.insertionSort sqlRowLe (offerViewsFor dbC5 1)) (by decide) (by decide)⟩

/-! ## C6 — display ordering of the comparison query -/

theorem sqlRowLe_iff_key (a b : OfferView) : sqlRowLe a b ↔ sqlKey a ≤ sqlKey b := by
  rcases ha : a.in_stock with _ | x <;> rcases hb : b.in_stock with _ | y <;>
    rcases hpa : a.price_gel with _ | p <;> rcases hpb : b.price_gel with _ | q <;>
      simp_all [sqlRowLe, sqlRowLeB, sqlKey, Prod.Lex.le_iff,
        OrderDual.toDual_le_toDual, bot_le, WithBot.coe_le_coe]
  all_goals try omega
  split_ifs with hxy <;> simp_all

instance : IsTotal OfferView sqlRowLe :=
  ⟨fun a b => (le_total (sqlKey a) (sqlKey b)).imp
    (sqlRowLe_iff_key a b).mpr (sqlRowLe_iff_key b a).mpr⟩

instance : IsTrans OfferView sqlRowLe :=
  ⟨fun a b c hab hbc => (sqlRowLe_iff_key a c).mpr
    (le_trans ((sqlRowLe_iff_key a b).mp hab) ((sqlRowLe_iff_key b c).mp hbc))⟩

theorem sqlRowLe_imp_claim (a b : OfferView)
    (hsa : a.in_stock = none ∨ a.in_stock = some 0 ∨ a.in_stock = some 1)
    (hsb : b.in_stock = none ∨ b.in_stock = some 0 ∨ b.in_stock = some 1)
    (h : sqlRowLe a b) : claimRowLe a b := by
  rcases hsa with ha | ha | ha <;> rcases hsb with hb | hb | hb <;>
    rcases hpa : a.price_gel with _ | p <;> rcases hpb : b.price_gel with _ | q <;>
      simp_all [sqlRowLe, sqlRowLeB, claimRowLe, priceNullsFirstLe]

theorem get_book_views (db : DB) (isbn : PyStr) (book : Book)
    (views : List OfferView)
    (hget : get_book_by_isbn db isbn = some (book, views)) :
    views = List.insertionSort sqlRowLe (offerViewsFor db book.id) := by
  unfold get_book_by_isbn at hget
  cases hf : db.books.find? (fun b => decide (b.isbn13 = isbn)) with
  | none => rw [hf] at hget; cases hget
  | some b0 =>
    rw [hf] at hget
    injection hget with hget
    have hb : b0 = book := congrArg Prod.fst hget
    have hv : List.insertionSort sqlRowLe (offerViewsFor db b0.id) = views :=
      congrArg Prod.snd hget
    rw [← hv, hb]

/-- **C6, counterexample.**  Within one stock group the code returns the
null-price offer *first* (SQLite's `ASC` sorts `NULL` before every value),
so the output is not ordered by the claim's "price ascending with null
prices last" key. -/
theorem C6_counterexample :
    (get_book_by_isbn dbNullPrice [105]).map (fun r => r.2) =
      some [OfferView.mk [115] [118] none (some 1) 5,
            OfferView.mk [115] [117] (some 10) (some 1) 5] ∧
    ¬ claimRowLeNullsLast (OfferView.mk [115] [118] none (some 1) 5)
        (OfferView.mk [115] [117] (some 10) (some 1) 5) := by
  exact ⟨by decide, by decide⟩

/-- **C6 (amended).**  Whenever the stored stock values are the tri-state
`NULL`/`0`/`1` the Python layer writes, the offers returned by
`compareByIsbn` are sorted by: null stock after any non-null stock, then
stock true before stock false, then price ascending with null prices
*first* (not last as the claim stated). -/
theorem C6_display_order (db : DB) (isbn : PyStr) (book : Book)
    (views : List OfferView)
    (hget : get_book_by_isbn db isbn = some (book, views))
    (hstock : ∀ o ∈ db.offers,
      o.in_stock = none ∨ o.in_stock = some 0 ∨ o.in_stock = some 1) :
    views.Sorted claimRowLe := by
  have hviews := get_book_views db isbn book views hget
  have hsorted : views.Sorted sqlRowLe := by
    rw [hviews]
    exact List.sorted_insertionSort sqlRowLe _
  have hmem : ∀ v ∈ views,
      v.in_stock = none ∨ v.in_stock = some 0 ∨ v.in_stock = some 1 := by
    intro v hv
    have hv' : v ∈ offerViewsFor db book.id := by
      rw [hviews] at hv
      exact (List.perm_insertionSort sqlRowLe _).subset hv
    unfold offerViewsFor at hv'
    rw [List.mem_flatMap] at hv'
    obtain ⟨sp, _, hvm⟩ := hv'
    rw [List.mem_map] at hvm
    obtain ⟨o, ho, rfl⟩ := hvm
    have ho' : o ∈ db.offers := List.mem_of_mem_filter ho
    simpa [mkView] using hstock o ho'
  exact List.Pairwise.imp_of_mem
    (fun {x y} hx hy hr => sqlRowLe_imp_claim x y (hmem x hx) (hmem y hy) hr) hsorted

/-- **C6, witness.** -/
theorem C6_witness :
    (get_book_by_isbn dbC5 [105] =
      some (Book.mk 1 [105] none none,
        List.insertionSort sqlRowLe (offerViewsFor dbC5 1))) ∧
    (∀ o ∈ dbC5.offers,
      o.in_stock = none ∨ o.in_stock = some 0 ∨ o.in_stock = some 1) ∧
    (List.insertionSort sqlRowLe (offerViewsFor dbC5 1)).Sorted claimRowLe :=
  ⟨by decide, by decide,
   C6_display_order dbC5 [105] (Book.mk 1 [105] none none)
     (List.insertionSort sqlRowLe (offerViewsFor dbC5 1)) (by decide) (by decide)⟩

/-! ## Normal forms of the title normalizer, for C8 -/

theorem pyLower_eq_self (v : Nat)
    (h1 : ¬(65 ≤ v ∧ v ≤ 90))
    (h2 : ¬(0x400 ≤ v ∧ v ≤ 0x40F))
    (h3 : ¬(0x410 ≤ v ∧ v ≤ 0x42F))
    (h4 : ¬(0x460 ≤ v ∧ v ≤ 0x481 ∧ v % 2 = 0))
    (h5 : ¬(0x48A ≤ v ∧ v ≤ 0x4BF ∧ v % 2 = 0))
    (h6 : ¬(v = 0x4C0))
    (h7 : ¬(0x4C1 ≤ v ∧ v ≤ 0x4CE ∧ v % 2 = 1))
    (h8 : ¬(0x4D0 ≤ v ∧ v ≤ 0x4FF ∧ v % 2 = 0))
    (h9 : ¬((0x10A0 ≤ v ∧ v ≤ 0x10C5) ∨ v = 0x10C7 ∨ v = 0x10CD))
    (h10 : ¬((0x1C90 ≤ v ∧ v ≤ 0x1CBA) ∨ v = 0x1CBD ∨ v = 0x1CBE ∨ v = 0x1CBF))
    (h11 : ¬(v = 0x212A)) : pyLower v = v := by
  unfold pyLower
  rw [if_neg h1, if_neg h2, if_neg h3, if_neg h4, if_neg h5, if_neg h6, if_neg h7,
    if_neg h8, if_neg h9, if_neg h10, if_neg h11]

theorem pyLower_idem (c : Nat) : pyLower (pyLower c) = pyLower c := by
  by_cases h1 : 65 ≤ c ∧ c ≤ 90
  · have hc : pyLower c = c + 32 := by unfold pyLower; rw [if_pos h1]
    rw [hc]; apply pyLower_eq_self <;> omega
  by_cases h2 : 0x400 ≤ c ∧ c ≤ 0x40F
  · have hc : pyLower c = c + 0x50 := by unfold pyLower; rw [if_neg h1, if_pos h2]
    rw [hc]; apply pyLower_eq_self <;> omega
  by_cases h3 : 0x410 ≤ c ∧ c ≤ 0x42F
  · have hc : pyLower c = c + 0x20 := by unfold pyLower; rw [if_neg h1, if_neg h2, if_pos h3]
    rw [hc]; apply pyLower_eq_self <;> omega
  by_cases h4 : 0x460 ≤ c ∧ c ≤ 0x481 ∧ c % 2 = 0
  · have hc : pyLower c = c + 1 := by
      unfold pyLower; rw [if_neg h1, if_neg h2, if_neg h3, if_pos h4]
    rw [hc]; apply pyLower_eq_self <;> omega
  by_cases h5 : 0x48A ≤ c ∧ c ≤ 0x4BF ∧ c % 2 = 0
  · have hc : pyLower c = c + 1 := by
      unfold pyLower; rw [if_neg h1, if_neg h2, if_neg h3, if_neg h4, if_pos h5]
    rw [hc]; apply pyLower_eq_self <;> omega
  by_cases h6 : c = 0x4C0
  · have hc : pyLower c = 0x4CF := by
      unfold pyLower; rw [if_neg h1, if_neg h2, if_neg h3, if_neg h4, if_neg h5, if_pos h6]
    rw [hc]; apply pyLower_eq_self <;> omega
  by_cases h7 : 0x4C1 ≤ c ∧ c ≤ 0x4CE ∧ c % 2 = 1
  · have hc : pyLower c = c + 1 := by
      unfold pyLower
      rw [if_neg h1, if_neg h2, if_neg h3, if_neg h4, if_neg h5, if_neg h6, if_pos h7]
    rw [hc]; apply pyLower_eq_self <;> omega
  by_cases h8 : 0x4D0 ≤ c ∧ c ≤ 0x4FF ∧ c % 2 = 0
  · have hc : pyLower c = c + 1 := by
      unfold pyLower
      rw [if_neg h1, if_neg h2, if_neg h3, if_neg h4, if_neg h5, if_neg h6, if_neg h7,
        if_pos h8]
    rw [hc]; apply pyLower_eq_self <;> omega
  by_cases h9 : (0x10A0 ≤ c ∧ c ≤ 0x10C5) ∨ c = 0x10C7 ∨ c = 0x10CD
  · have hc : pyLower c = c + 0x1C60 := by
      unfold pyLower
      rw [if_neg h1, if_neg h2, if_neg h3, if_neg h4, if_neg h5, if_neg h6, if_neg h7,
        if_neg h8, if_pos h9]
    rw [hc]; apply pyLower_eq_self <;> omega
  by_cases h10 : (0x1C90 ≤ c ∧ c ≤ 0x1CBA) ∨ c = 0x1CBD ∨ c = 0x1CBE ∨ c = 0x1CBF
  · have hc : pyLower c = c - 0xBC0 := by
      unfold pyLower
      rw [if_neg h1, if_neg h2, if_neg h3, if_neg h4, if_neg h5, if_neg h6, if_neg h7,
        if_neg h8, if_neg h9, if_pos h10]
    rw [hc]; apply pyLower_eq_self <;> omega
  by_cases h11 : c = 0x212A
  · have hc : pyLower c = 0x6B := by
      unfold pyLower
      rw [if_neg h1, if_neg h2, if_neg h3, if_neg h4, if_neg h5, if_neg h6, if_neg h7,
        if_neg h8, if_neg h9, if_neg h10, if_pos h11]
    rw [hc]; apply pyLower_eq_self <;> omega
  have hc : pyLower c = c :=
    pyLower_eq_self c h1 h2 h3 h4 h5 h6 h7 h8 h9 h10 h11
  rw [hc, hc]

theorem goodCP_not_space {c : Nat} (h : goodCP c = true) : isSpaceCP c = false := by
  unfold goodCP at h
  simp only [Bool.and_eq_true, Bool.not_eq_true'] at h
  exact h.1.1.2

theorem goodCP_kept {c : Nat} (h : goodCP c = true) : isKeptCP c = true := by
  unfold goodCP at h
  simp only [Bool.and_eq_true] at h
  exact h.1.1.1

theorem goodCP_fix {c : Nat} (h : goodCP c = true) : pyLower c = c := by
  unfold goodCP at h
  simp only [Bool.and_eq_true, decide_eq_true_eq] at h
  exact h.1.2

theorem goodCP_ne_yo {c : Nat} (h : goodCP c = true) : c ≠ 0x451 := by
  unfold goodCP at h
  simp only [Bool.and_eq_true, decide_eq_true_eq] at h
  exact h.2

theorem goodCP_ne_space {c : Nat} (h : goodCP c = true) : c ≠ 32 := by
  intro hc
  subst hc
  exact absurd (goodCP_not_space h) (by decide)

theorem kept_not_quote {c : Nat} (h : isKeptCP c = true) : isQuoteCP c = false := by
  cases hq : isQuoteCP c with
  | false => rfl
  | true =>
    exfalso
    unfold isQuoteCP at hq
    simp only [Bool.or_eq_true, decide_eq_true_eq] at hq
    rcases hq with (((((rfl | rfl) | rfl) | rfl) | rfl) | rfl) | rfl <;>
      exact absurd h (by decide)

theorem kept_not_bracket {c : Nat} (h : isKeptCP c = true) : isBracketCP c = false := by
  cases hb : isBracketCP c with
  | false => rfl
  | true =>
    exfalso
    unfold isBracketCP at hb
    simp only [Bool.or_eq_true, decide_eq_true_eq] at hb
    rcases hb with ((((rfl | rfl) | rfl) | rfl) | rfl) | rfl <;>
      exact absurd h (by decide)

theorem charStep_ok {x : Nat} (hfix : pyLower x = x) (hyo : x ≠ 0x451) :
    isSpaceCP (filterCatchAll (bracketToSpace x)) = true ∨
      goodCP (filterCatchAll (bracketToSpace x)) = true := by
  unfold bracketToSpace
  by_cases hb : isBracketCP x = true
  · rw [if_pos hb]
    left
    decide
  · rw [if_neg hb]
    unfold filterCatchAll
    by_cases hk : isKeptCP x = true
    · rw [if_pos hk]
      by_cases hs : isSpaceCP x = true
      · exact Or.inl hs
      · right
        unfold goodCP
        simp only [Bool.and_eq_true, Bool.not_eq_true', decide_eq_true_eq]
        exact ⟨⟨⟨hk, Bool.not_eq_true _ ▸ (by simpa using hs)⟩, hfix⟩, hyo⟩
    · rw [if_neg hk]
      left
      decide

theorem yoFold_ok {c : Nat} (hfix : pyLower c = c) :
    pyLower (yoFold c) = yoFold c ∧ yoFold c ≠ 0x451 := by
  unfold yoFold
  by_cases hc : c = 0x451
  · rw [if_pos hc]
    exact ⟨by decide, by decide⟩
  · rw [if_neg hc]
    exact ⟨hfix, hc⟩

theorem mem_of_head?_eq {α : Type} {l : List α} {a : α} (h : l.head? = some a) :
    a ∈ l :=
  List.mem_of_mem_head? (Option.mem_def.mpr h)

theorem mem_of_getLast?_eq {α : Type} {l : List α} {a : α} (h : l.getLast? = some a) :
    a ∈ l := by
  have h' : l.reverse.head? = some a := by rw [List.head?_reverse]; exact h
  exact List.mem_reverse.mp (mem_of_head?_eq h')

theorem collapse_spec (l : PyStr)
    (hl : ∀ c ∈ l, isSpaceCP c = true ∨ goodCP c = true) :
    (∀ b, (∀ c ∈ collapseWSAux b l, c = 32 ∨ goodCP c = true) ∧
      (collapseWSAux b l).Chain' (fun x y => x = 32 → y ≠ 32)) ∧
    (∀ c, (collapseWSAux true l).head? = some c → goodCP c = true) := by
  induction l with
  | nil =>
    refine ⟨fun b => ⟨?_, ?_⟩, ?_⟩
    · intro c hc; cases hc
    · exact List.chain'_nil
    · intro c hc; cases hc
  | cons a t ih =>
    have iht := ih (fun c hc => hl c (List.mem_cons_of_mem _ hc))
    by_cases hs : isSpaceCP a = true
    · have htrue : collapseWSAux true (a :: t) = collapseWSAux true t := by
        simp only [collapseWSAux, hs]
        rfl
      have hfalse : collapseWSAux false (a :: t) = 32 :: collapseWSAux true t := by
        simp only [collapseWSAux, hs]
        rfl
      refine ⟨?_, ?_⟩
      · intro b
        cases b with
        | true =>
          rw [htrue]
          exact iht.1 true
        | false =>
          rw [hfalse]
          constructor
          · intro c hc
            rcases List.mem_cons.mp hc with rfl | hc'
            · exact Or.inl rfl
            · exact (iht.1 true).1 c hc'
          · rw [List.chain'_cons']
            refine ⟨?_, (iht.1 true).2⟩
            intro y hy _
            have hg : goodCP y = true := iht.2 y (Option.mem_def.mp hy)
            exact goodCP_ne_space hg
      · intro c hc
        rw [htrue] at hc
        exact iht.2 c hc
    · have hga : goodCP a = true := (hl a (List.mem_cons_self _ _)).resolve_left hs
      have hb : ∀ b : Bool, collapseWSAux b (a :: t) = a :: collapseWSAux false t := by
        intro b
        simp only [collapseWSAux, hs]
        rfl
      refine ⟨?_, ?_⟩
      · intro b
        rw [hb b]
        constructor
        · intro c hc
          rcases List.mem_cons.mp hc with rfl | hc'
          · exact Or.inr hga
          · exact (iht.1 false).1 c hc'
        · rw [List.chain'_cons']
          refine ⟨?_, (iht.1 false).2⟩
          intro y _ ha32
          exact absurd ha32 (goodCP_ne_space hga)
      · intro c hc
        rw [hb true] at hc
        injection hc with hc
        subst hc
        exact hga

theorem head?_dropWhile_not {α : Type} (p : α → Bool) (l : List α) (c : α)
    (h : (l.dropWhile p).head? = some c) : p c = false := by
  induction l with
  | nil => cases h
  | cons a t ih =>
    rw [List.dropWhile_cons] at h
    by_cases hp : p a = true
    · rw [if_pos hp] at h
      exact ih h
    · rw [if_neg hp] at h
      injection h with h
      subst h
      exact Bool.eq_false_iff.mpr hp

theorem chain'_dropWhile {α : Type} (R : α → α → Prop) (p : α → Bool) (l : List α)
    (h : l.Chain' R) : (l.dropWhile p).Chain' R := by
  induction l with
  | nil => exact h
  | cons a t ih =>
    rw [List.dropWhile_cons]
    by_cases hp : p a = true
    · rw [if_pos hp]
      exact ih h.tail
    · rw [if_neg hp]
      exact h

theorem mem_stripCP {l : PyStr} {c : Nat} (h : c ∈ stripCP l) : c ∈ l := by
  unfold stripCP at h
  rw [List.mem_reverse] at h
  have h1 := (List.dropWhile_suffix isSpaceCP).sublist.subset h
  rw [List.mem_reverse] at h1
  exact (List.dropWhile_suffix isSpaceCP).sublist.subset h1

theorem chain'_stripCP {R : Nat → Nat → Prop} {l : PyStr} (h : l.Chain' R) :
    (stripCP l).Chain' R := by
  unfold stripCP
  rw [List.chain'_reverse]
  apply chain'_dropWhile
  have h1 : (l.dropWhile isSpaceCP).Chain' R := chain'_dropWhile R _ l h
  rw [List.chain'_reverse]
  exact h1

theorem head?_stripCP_not_space {l : PyStr} {c : Nat}
    (h : (stripCP l).head? = some c) : isSpaceCP c = false := by
  unfold stripCP at h
  rw [List.head?_reverse] at h
  have hz : (List.dropWhile isSpaceCP (l.dropWhile isSpaceCP).reverse).getLast? = some c := h
  have hne : List.dropWhile isSpaceCP (l.dropWhile isSpaceCP).reverse ≠ [] := by
    intro he
    rw [he] at hz
    cases hz
  obtain ⟨t, ht⟩ := List.dropWhile_suffix (l := (l.dropWhile isSpaceCP).reverse) isSpaceCP
  have h2 : ((l.dropWhile isSpaceCP).reverse).getLast? = some c := by
    rw [← ht, List.getLast?_append, hz]
    rfl
  rw [List.getLast?_reverse] at h2
  exact head?_dropWhile_not isSpaceCP l c h2

theorem getLast?_stripCP_not_space {l : PyStr} {c : Nat}
    (h : (stripCP l).getLast? = some c) : isSpaceCP c = false := by
  unfold stripCP at h
  rw [List.getLast?_reverse] at h
  exact head?_dropWhile_not isSpaceCP _ c h

theorem title_norm_core_normal (s : PyStr) : NormalStr (title_norm_core s) := by
  simp only [title_norm_core]
  set t5 := (((((stripCP s).map pyLower).map yoFold).filter
    (fun c => !(isQuoteCP c))).map bracketToSpace).map filterCatchAll with ht5
  have h5 : ∀ c ∈ t5, isSpaceCP c = true ∨ goodCP c = true := by
    intro c hc
    rw [ht5] at hc
    rw [List.mem_map] at hc
    obtain ⟨z4, hz4, rfl⟩ := hc
    rw [List.mem_map] at hz4
    obtain ⟨z3, hz3, rfl⟩ := hz4
    have hz2 := List.mem_of_mem_filter hz3
    rw [List.mem_map] at hz2
    obtain ⟨z1, hz1, rfl⟩ := hz2
    rw [List.mem_map] at hz1
    obtain ⟨z0, _, rfl⟩ := hz1
    obtain ⟨hfix, hyo⟩ := yoFold_ok (pyLower_idem z0)
    exact charStep_ok hfix hyo
  have hcol := collapse_spec t5 h5
  have hcc : ∀ c ∈ collapseWS t5, c = 32 ∨ goodCP c = true := (hcol.1 false).1
  have hch : (collapseWS t5).Chain' (fun x y => x = 32 → y ≠ 32) := (hcol.1 false).2
  refine ⟨?_, chain'_stripCP hch, ?_, ?_⟩
  · intro c hc
    exact hcc c (mem_stripCP hc)
  · intro c hc
    have hns := head?_stripCP_not_space hc
    rcases hcc c (mem_stripCP (mem_of_head?_eq hc)) with rfl | hg
    · exact absurd hns (by decide)
    · exact goodCP_ne_space hg
  · intro c hc
    have hns := getLast?_stripCP_not_space hc
    rcases hcc c (mem_stripCP (mem_of_getLast?_eq hc)) with rfl | hg
    · exact absurd hns (by decide)
    · exact goodCP_ne_space hg

theorem strip_id (l : PyStr)
    (hh : ∀ c, l.head? = some c → isSpaceCP c = false)
    (hl : ∀ c, l.getLast? = some c → isSpaceCP c = false) : stripCP l = l := by
  have h1 : l.dropWhile isSpaceCP = l := by
    cases l with
    | nil => rfl
    | cons a t =>
      rw [List.dropWhile_cons, if_neg]
      rw [hh a rfl]
      exact Bool.false_ne_true
  have h2 : l.reverse.dropWhile isSpaceCP = l.reverse := by
    cases hrev : l.reverse with
    | nil => rfl
    | cons a t =>
      have hga : l.getLast? = some a := by
        rw [← List.head?_reverse, hrev]
        rfl
      rw [List.dropWhile_cons, if_neg]
      rw [hl a hga]
      exact Bool.false_ne_true
  unfold stripCP
  rw [h1, h2, List.reverse_reverse]

theorem collapse_id (l : PyStr)
    (hc : ∀ c ∈ l, c = 32 ∨ goodCP c = true)
    (hch : l.Chain' (fun x y => x = 32 → y ≠ 32)) :
    collapseWSAux false l = l ∧
      ((∀ c, l.head? = some c → c ≠ 32) → collapseWSAux true l = l) := by
  induction l with
  | nil => exact ⟨rfl, fun _ => rfl⟩
  | cons a t ih =>
    have hcc := List.chain'_cons'.mp hch
    obtain ⟨iht1, iht2⟩ := ih (fun c hcm => hc c (List.mem_cons_of_mem _ hcm)) hcc.2
    rcases hc a (List.mem_cons_self _ _) with rfl | hg
    · have hs32 : isSpaceCP 32 = true := by decide
      have httail : collapseWSAux true t = t := by
        apply iht2
        intro c hhc
        exact hcc.1 c (Option.mem_def.mpr hhc) rfl
      constructor
      · show (if isSpaceCP 32 = true then
            if false = true then collapseWSAux true t else 32 :: collapseWSAux true t
          else 32 :: collapseWSAux false t) = 32 :: t
        rw [if_pos hs32]
        show 32 :: collapseWSAux true t = 32 :: t
        rw [httail]
      · intro hhead
        exact absurd rfl (hhead 32 rfl)
    · have hns : isSpaceCP a = false := goodCP_not_space hg
      have hred : ∀ b : Bool, collapseWSAux b (a :: t) = a :: collapseWSAux false t := by
        intro b
        show (if isSpaceCP a = true then _ else a :: collapseWSAux false t) = _
        rw [if_neg (by rw [hns]; exact Bool.false_ne_true)]
      constructor
      · rw [hred false, iht1]
      · intro _
        rw [hred true, iht1]

theorem core_id_of_normal (r : PyStr) (h : NormalStr r) : title_norm_core r = r := by
  obtain ⟨hchars, hchain, hhead, hlast⟩ := h
  have hsp_head : ∀ c, r.head? = some c → isSpaceCP c = false := by
    intro c hc
    rcases hchars c (mem_of_head?_eq hc) with rfl | hg
    · exact absurd rfl (hhead 32 hc)
    · exact goodCP_not_space hg
  have hsp_last : ∀ c, r.getLast? = some c → isSpaceCP c = false := by
    intro c hc
    rcases hchars c (mem_of_getLast?_eq hc) with rfl | hg
    · exact absurd rfl (hlast 32 hc)
    · exact goodCP_not_space hg
  have hstrip : stripCP r = r := strip_id r hsp_head hsp_last
  have hlow : r.map pyLower = r := by
    rw [show r.map pyLower = r.map id from
      List.map_congr_left (by
        intro c hcm
        rcases hchars c hcm with rfl | hg
        · decide
        · exact goodCP_fix hg), List.map_id]
  have hyo : r.map yoFold = r := by
    rw [show r.map yoFold = r.map id from
      List.map_congr_left (by
        intro c hcm
        show yoFold c = c
        unfold yoFold
        rcases hchars c hcm with rfl | hg
        · rfl
        · rw [if_neg (goodCP_ne_yo hg)]), List.map_id]
  have hq : r.filter (fun c => !(isQuoteCP c)) = r := by
    rw [List.filter_eq_self]
    intro c hcm
    rcases hchars c hcm with rfl | hg
    · decide
    · rw [kept_not_quote (goodCP_kept hg)]
      rfl
  have hbr : r.map bracketToSpace = r := by
    rw [show r.map bracketToSpace = r.map id from
      List.map_congr_left (by
        intro c hcm
        show bracketToSpace c = c
        unfold bracketToSpace
        rcases hchars c hcm with rfl | hg
        · rfl
        · rw [if_neg (by rw [kept_not_bracket (goodCP_kept hg)]; exact Bool.false_ne_true)]),
      List.map_id]
  have hca : r.map filterCatchAll = r := by
    rw [show r.map filterCatchAll = r.map id from
      List.map_congr_left (by
        intro c hcm
        show filterCatchAll c = c
        unfold filterCatchAll
        rcases hchars c hcm with rfl | hg
        · rfl
        · rw [if_pos (goodCP_kept hg)]), List.map_id]
  have hcw : collapseWS r = r := (collapse_id r hchars hchain).1
  simp only [title_norm_core]
  rw [hstrip, hlow, hyo, hq, hbr, hca, hcw, hstrip]

/-! ## C8 — idempotence of the title normalizer -/

/-- **C8.**  The title normalizer is idempotent:
`title_norm (title_norm x) = title_norm x` for every optional string. -/
theorem C8_normalize_idempotent (x : Option PyStr) :
    title_norm (title_norm x) = title_norm x := by
  cases x with
  | none => rfl
  | some s =>
    by_cases hs : s = []
    · subst hs
      rfl
    · have hT : title_norm (some s) =
          if title_norm_core s = [] then none else some (title_norm_core s) := by
        simp only [title_norm]
        rw [if_neg hs]
      by_cases hc : title_norm_core s = []
      · rw [hT, if_pos hc]
        rfl
      · rw [hT, if_neg hc]
        have hcore : title_norm_core (title_norm_core s) = title_norm_core s :=
          core_id_of_normal _ (title_norm_core_normal s)
        simp only [title_norm]
        rw [if_neg hc, hcore, if_neg hc]

example : title_norm (some [72, 101, 108, 108, 111, 44, 32, 34, 87, 111, 114, 108, 100, 34, 33])
    = some [104, 101, 108, 108, 111, 32, 119, 111, 114, 108, 100] := by decide

example : title_norm (some [33, 33, 33]) = none := by decide

example : title_norm (some [32, 9]) = none := by decide
